import Mathlib

/-! # Teresa: deployment pipeline and pod execution engine

A shallow embedding of `pkg/server/deploy/deploy.go` (Deploy, Rollback and their
helpers) and of `PodRun` and its waits in `pkg/server/k8s/client.go`.

Every collaborator reached through an interface (application store, artifact
store, cluster gateway, pod executor) is a field of the operations record: a
function from the arguments of the call to its outcome.  Each Go function is a
Lean function that returns the effects it performs, in program order, as a list
of `Event`s together with its result.  A goroutine is the list of effects of its
body; a `defer` is appended at the end of that list.  Collaborator calls are
taken to return.
-/

namespace Teresa

/-! ## Errors -/

/-- Go `error` values that reach the pipeline.  The sentinels are package level
variables compared with `==`; `New` is `teresa_errors.New(code, cause)`,
`NewInternalServerError` is `teresa_errors.NewInternalServerError(cause)`, and
`other n` stands for any error produced by a collaborator. -/
inductive GoError where
  | ErrPermissionDenied
  | ErrInvalidTeresaYamlFile
  | ErrPodRunFail
  | ErrBuildFail
  | ErrReleaseFail
  | ErrPodRunFailed
  | ErrWaitTimeout
  | New (code cause : GoError)
  | NewInternalServerError (cause : GoError)
  | other (id : Nat)
  deriving DecidableEq, Repr

/-! ## Data model -/

/-- The caller, `database.User`; only the e-mail is read by this code. -/
structure User where
  Email : String
  deriving DecidableEq, Repr

/-- The application descriptor `app.App`, restricted to the fields read here. -/
structure App where
  Name : String
  Team : String
  ProcessType : String
  VirtualHost : String
  deriving DecidableEq, Repr

namespace app

/-- Modelled from the spec: the constant `app.ProcessTypeWeb` is declared in the
`app` package, which is not among the sources; it names the process type that
requires network exposure. -/
def ProcessTypeWeb : String := "web"

/-- Modelled from the spec: the constant `app.ProcessTypeCron` is declared in the
`app` package, which is not among the sources; it names the scheduled process
type and the key of its command in the process-command table. -/
def ProcessTypeCron : String := "cron"

end app

/-- The constant `ProcfileReleaseCmd`. -/
def ProcfileReleaseCmd : String := "release"

/-- The constant `runLabel`. -/
def runLabel : String := "run"

/-- The uploaded archive, an `io.ReadSeeker`, as its bytes. -/
abbrev TarBall := List Nat

/-- The pipeline configuration `Options`. -/
structure Options where
  SlugRunnerImage : String
  SlugStoreImage : String
  SlugBuilderImage : String
  BuildLimitCPU : String
  BuildLimitMemory : String
  RevisionHistoryLimit : Nat
  deriving DecidableEq, Repr

namespace spec

/-- The struct `spec.SlugImages`. -/
structure SlugImages where
  Runner : String
  Store : String
  deriving DecidableEq, Repr

/-- The struct `spec.ContainerLimits`. -/
structure ContainerLimits where
  CPU : String
  Memory : String
  deriving DecidableEq, Repr

/-- The schedule part of the manifest, `TeresaYaml.Cron`. -/
structure CronArgs where
  Schedule : String
  deriving DecidableEq, Repr

/-- The structured manifest `spec.TeresaYaml`, restricted to what is read here. -/
structure TeresaYaml where
  Cron : CronArgs
  deriving DecidableEq, Repr

/-- Modelled from the spec: the constructors `spec.NewBuilder` and
`spec.NewRunner` are not among the sources (only their tests are); a one-shot
pod specification is represented by the constructor that made it and the
arguments it was given. -/
inductive Pod where
  | NewBuilder (name tarBallLocation buildDest image : String) (a : App)
      (limits : ContainerLimits)
  | NewRunner (name slugURL : String) (imgs : SlugImages) (a : App)
      (limits : ContainerLimits) (command : List String)
  deriving DecidableEq, Repr

/-- Modelled from the spec: `spec.NewDeploy` is not among the sources; the
long-running workload specification is the record of its arguments. -/
structure Deploy where
  imgs : SlugImages
  description : String
  slugURL : String
  revisionHistoryLimit : Nat
  a : App
  teresaYaml : TeresaYaml
  deriving DecidableEq, Repr

/-- Modelled from the spec: `spec.NewCronJob` is not among the sources; the
scheduled-job specification is the record of its arguments. -/
structure CronJob where
  description : String
  slugURL : String
  schedule : String
  imgs : SlugImages
  a : App
  args : List String
  deriving DecidableEq, Repr

end spec

/-- The config file bundle `DeployConfigFiles`: the manifest and the
process-command table, a Go map that may be `nil` (`none`). -/
structure DeployConfigFiles where
  TeresaYaml : spec.TeresaYaml
  Procfile : Option (List (String × String))
  deriving DecidableEq, Repr

/-- Indexing a Go `map[string]string`: the zero value `""` for a `nil` map or a
missing key. -/
def mapIndex (m : Option (List (String × String))) (key : String) : String :=
  match m with
  | none => ""
  | some kvs => (kvs.lookup key).getD ""

/-- Splitting a list of characters at every occurrence of `sep`. -/
def splitChars (sep : Char) : List Char → List (List Char)
  | [] => [[]]
  | c :: cs =>
    if c = sep then [] :: splitChars sep cs
    else
      match splitChars sep cs with
      | [] => [[c]]
      | w :: ws => (c :: w) :: ws

/-- Go `strings.Split(s, " ")`: the substrings between single spaces. -/
def stringsSplitSpace (s : String) : List String :=
  (splitChars ' ' s.data).map String.mk

/-- What a receive on the error channel of a pod run observes: a value (`nil`
or an error), or the channel closed with no value. -/
inductive RunResult where
  | value (err : Option GoError)
  | closed
  deriving DecidableEq, Repr

/-! ## Effects -/

/-- The observable effects of the pipeline, in program order. -/
inductive Event where
  | Get (appName : String)
  | TeamName (appName : String)
  | HasPermission (user : User) (appName : String)
  | CheckPermAndGet (user : User) (appName : String)
  | SaveApp (a : App) (email : String)
  | getDeployConfigFilesFromTarBall (processType : String)
  | uidNew
  | Seek
  | UploadFile (path : String)
  | RunCommandBySpec (podSpec : spec.Pod)
  | goCopy (podSpec : spec.Pod)
  | CreateOrUpdateDeploy (deploySpec : spec.Deploy)
  | CreateOrUpdateCronJob (cronJobSpec : spec.CronJob)
  | ExposeDeploy (ns name vHost : String)
  | DeployRollbackToRevision (ns name revision : String)
  | Fprintln (line : String)
  | send (err : GoError)
  | logError (err : GoError) (msg : String)
  | Close
  deriving DecidableEq, Repr

/-- The receiver `DeployOperations`: the outcomes of its collaborators
(`appOps`, `fileStorage`, `k8s`, `execOps`), of the package helpers that are not
among the sources (`getDeployConfigFilesFromTarBall`, `uid.New`), and `opts`. -/
structure DeployOperations where
  Get : String → Except GoError App
  TeamName : String → Except GoError String
  HasPermission : User → String → Bool
  CheckPermAndGet : User → String → Except GoError App
  SaveApp : App → String → Option GoError
  getDeployConfigFilesFromTarBall : TarBall → String → Except GoError DeployConfigFiles
  uidNew : String
  UploadFile : String → TarBall → Option GoError
  RunCommandBySpec : spec.Pod → RunResult
  CreateOrUpdateDeploy : spec.Deploy → Option GoError
  CreateOrUpdateCronJob : spec.CronJob → Option GoError
  ExposeDeploy : String → String → String → Option GoError
  DeployRollbackToRevision : String → String → String → Option GoError
  opts : Options

/-! ## The pipeline (`deploy.go`) -/

/-- The build output location `deploys/<appName>/<deployId>/out` of `Deploy`. -/
def buildDestOf (appName deployId : String) : String :=
  "deploys/" ++ appName ++ "/" ++ deployId ++ "/out"

/-- The slug location `<buildDest>/slug.tgz` of `Deploy`. -/
def slugURLOf (appName deployId : String) : String :=
  buildDestOf appName deployId ++ "/slug.tgz"

/-- The success line of the long-running path. -/
def successLine (a : App) : String :=
  "The app " ++ a.Name ++ " has been successfully deployed"

/-- The method `buildLimits`. -/
def buildLimits (ops : DeployOperations) : spec.ContainerLimits :=
  { CPU := ops.opts.BuildLimitCPU, Memory := ops.opts.BuildLimitMemory }

/-- The method `podRun`: start the pod, copy its output in a goroutine, receive
from the run error channel; any non-nil value becomes `ErrPodRunFail`. -/
def podRun (ops : DeployOperations) (podSpec : spec.Pod) : List Event × Option GoError :=
  let evs := [Event.RunCommandBySpec podSpec, Event.goCopy podSpec]
  match ops.RunCommandBySpec podSpec with
  | RunResult.value (some _) => (evs, some GoError.ErrPodRunFail)
  | RunResult.value none => (evs, none)
  | RunResult.closed => (evs, none)

/-- The path `deploys/<app>/<deployId>/in/app.tar.gz` computed in `buildApp`. -/
def tarBallLocation (a : App) (deployId : String) : String :=
  "deploys/" ++ a.Name ++ "/" ++ deployId ++ "/in/app.tar.gz"

/-- The builder pod specification made in `buildApp`. -/
def builderPod (ops : DeployOperations) (a : App) (deployId buildDest : String) : spec.Pod :=
  spec.Pod.NewBuilder ("build-" ++ deployId) (tarBallLocation a deployId) buildDest
    ops.opts.SlugBuilderImage a (buildLimits ops)

/-- The method `buildApp`. -/
def buildApp (ops : DeployOperations) (tarBall : TarBall) (a : App)
    (deployId buildDest : String) : List Event × Option GoError :=
  match ops.UploadFile (tarBallLocation a deployId) tarBall with
  | some err =>
    ([Event.Seek, Event.UploadFile (tarBallLocation a deployId),
      Event.Fprintln "The Deploy failed to upload the tarBall to slug storage"], some err)
  | none =>
    match podRun ops (builderPod ops a deployId buildDest) with
    | (evs, some err) =>
      ([Event.Seek, Event.UploadFile (tarBallLocation a deployId)] ++ evs,
        if err = GoError.ErrPodRunFail then some GoError.ErrBuildFail else some err)
    | (evs, none) =>
      ([Event.Seek, Event.UploadFile (tarBallLocation a deployId)] ++ evs, none)

/-- The release pod specification made in `runReleaseCmd`. -/
def releasePod (ops : DeployOperations) (a : App) (deployId slugURL : String) : spec.Pod :=
  spec.Pod.NewRunner ("release-" ++ a.Name ++ "-" ++ deployId) slugURL
    { Runner := ops.opts.SlugRunnerImage, Store := ops.opts.SlugStoreImage } a
    (buildLimits ops) ["start", ProcfileReleaseCmd]

/-- The method `runReleaseCmd`. -/
def runReleaseCmd (ops : DeployOperations) (a : App) (deployId slugURL : String) :
    List Event × Option GoError :=
  match podRun ops (releasePod ops a deployId slugURL) with
  | (evs, some err) =>
    (Event.Fprintln "Running release command" :: evs,
      if err = GoError.ErrPodRunFail then some GoError.ErrReleaseFail else some err)
  | (evs, none) => (Event.Fprintln "Running release command" :: evs, none)

/-- The method `exposeApp`. -/
def exposeApp (ops : DeployOperations) (a : App) : List Event × Option GoError :=
  if a.ProcessType ≠ app.ProcessTypeWeb then ([], none)
  else
    match ops.ExposeDeploy a.Name a.Name a.VirtualHost with
    | some err => ([Event.ExposeDeploy a.Name a.Name a.VirtualHost], some err)
    | none => ([Event.ExposeDeploy a.Name a.Name a.VirtualHost], none)

/-- The workload specification made in `createOrUpdateDeploy`. -/
def deploySpecOf (ops : DeployOperations) (a : App) (confFiles : DeployConfigFiles)
    (slugURL description : String) : spec.Deploy :=
  { imgs := { Runner := ops.opts.SlugRunnerImage, Store := ops.opts.SlugStoreImage },
    description := description,
    slugURL := slugURL,
    revisionHistoryLimit := ops.opts.RevisionHistoryLimit,
    a := a,
    teresaYaml := confFiles.TeresaYaml }

/-- The tail of `createOrUpdateDeploy`, from the construction of the workload
specification on. -/
def createOrUpdateDeployTail (ops : DeployOperations) (a : App)
    (confFiles : DeployConfigFiles) (slugURL description : String) : List Event :=
  match ops.CreateOrUpdateDeploy (deploySpecOf ops a confFiles slugURL description) with
  | some err =>
    [Event.CreateOrUpdateDeploy (deploySpecOf ops a confFiles slugURL description),
      Event.send err, Event.logError err ("Creating deploy app " ++ a.Name)]
  | none =>
    match exposeApp ops a with
    | (evs, some err) =>
      Event.CreateOrUpdateDeploy (deploySpecOf ops a confFiles slugURL description) :: evs ++
        [Event.send err, Event.logError err ("Exposing service " ++ a.Name)]
    | (evs, none) =>
      Event.CreateOrUpdateDeploy (deploySpecOf ops a confFiles slugURL description) :: evs ++
        [Event.Fprintln (successLine a)]

/-- The method `createOrUpdateDeploy`; sends on `errChan` are `Event.send`. -/
def createOrUpdateDeploy (ops : DeployOperations) (a : App) (confFiles : DeployConfigFiles)
    (slugURL description deployId : String) : List Event :=
  let releaseCmd := mapIndex confFiles.Procfile ProcfileReleaseCmd
  if confFiles.Procfile ≠ none ∧ releaseCmd ≠ "" then
    match runReleaseCmd ops a deployId slugURL with
    | (evs, some err) =>
      evs ++ [Event.send err,
        Event.logError err ("Running release command " ++ releaseCmd ++ " in app " ++ a.Name)]
    | (evs, none) => evs ++ createOrUpdateDeployTail ops a confFiles slugURL description
  else createOrUpdateDeployTail ops a confFiles slugURL description

/-- The scheduled-job specification made in `createOrUpdateCronJob`. -/
def cronSpecOf (ops : DeployOperations) (a : App) (confFiles : DeployConfigFiles)
    (slugURL description : String) : spec.CronJob :=
  { description := description,
    slugURL := slugURL,
    schedule := confFiles.TeresaYaml.Cron.Schedule,
    imgs := { Runner := ops.opts.SlugRunnerImage, Store := ops.opts.SlugStoreImage },
    a := a,
    args := stringsSplitSpace (mapIndex confFiles.Procfile app.ProcessTypeCron) }

/-- The method `createOrUpdateCronJob`. -/
def createOrUpdateCronJob (ops : DeployOperations) (a : App) (confFiles : DeployConfigFiles)
    (slugURL description : String) : List Event :=
  match ops.CreateOrUpdateCronJob (cronSpecOf ops a confFiles slugURL description) with
  | some err =>
    [Event.CreateOrUpdateCronJob (cronSpecOf ops a confFiles slugURL description),
      Event.send err, Event.logError err ("Creating CronJob " ++ a.Name)]
  | none =>
    [Event.CreateOrUpdateCronJob (cronSpecOf ops a confFiles slugURL description),
      Event.Fprintln ("The CronJob " ++ a.Name ++ " has been successfully deployed")]

/-- The body of the goroutine started by `Deploy`, with the deferred `w.Close()`
as its last effect. -/
def deployTask (ops : DeployOperations) (appName : String) (tarBall : TarBall) (a : App)
    (confFiles : DeployConfigFiles) (description deployId : String) : List Event :=
  let buildDest := buildDestOf appName deployId
  (match buildApp ops tarBall a deployId buildDest with
    | (evs, some err) =>
      evs ++ [Event.send err, Event.logError err ("Building app " ++ appName)]
    | (evs, none) =>
      let slugURL := slugURLOf appName deployId
      if a.ProcessType = app.ProcessTypeCron then
        evs ++ createOrUpdateCronJob ops a confFiles slugURL description
      else
        evs ++ createOrUpdateDeploy ops a confFiles slugURL description deployId)
  ++ [Event.Close]

/-- What a call of `Deploy` does: whether the returned reader is non-nil, the
effects performed before it returns, and the effects of the goroutine when one
is started. -/
structure DeployResult where
  stream : Bool
  sync : List Event
  background : Option (List Event)
  deriving DecidableEq, Repr

/-- The method `Deploy`. -/
def Deploy (ops : DeployOperations) (user : User) (appName : String) (tarBall : TarBall)
    (description : String) : DeployResult :=
  match ops.Get appName with
  | Except.error err =>
    { stream := false, sync := [Event.Get appName, Event.send err], background := none }
  | Except.ok a0 =>
    match ops.TeamName appName with
    | Except.error err =>
      { stream := false,
        sync := [Event.Get appName, Event.TeamName appName, Event.send err],
        background := none }
    | Except.ok teamName =>
      let a : App := { a0 with Team := teamName }
      if ops.HasPermission user appName = false then
        { stream := false,
          sync := [Event.Get appName, Event.TeamName appName,
            Event.HasPermission user appName, Event.send GoError.ErrPermissionDenied],
          background := none }
      else
        match ops.getDeployConfigFilesFromTarBall tarBall a.ProcessType with
        | Except.error err =>
          { stream := false,
            sync := [Event.Get appName, Event.TeamName appName,
              Event.HasPermission user appName,
              Event.getDeployConfigFilesFromTarBall a.ProcessType,
              Event.send (GoError.New GoError.ErrInvalidTeresaYamlFile err)],
            background := none }
        | Except.ok confFiles =>
          { stream := true,
            sync := [Event.Get appName, Event.TeamName appName,
              Event.HasPermission user appName,
              Event.getDeployConfigFilesFromTarBall a.ProcessType, Event.uidNew],
            background :=
              some (deployTask ops appName tarBall a confFiles description ops.uidNew) }

/-- The method `Rollback`: the calls it makes and the error it returns. -/
def Rollback (ops : DeployOperations) (user : User) (appName revision : String) :
    List Event × Option GoError :=
  match ops.CheckPermAndGet user appName with
  | Except.error err => ([Event.CheckPermAndGet user appName], some err)
  | Except.ok a =>
    match ops.DeployRollbackToRevision appName appName revision with
    | some err =>
      ([Event.CheckPermAndGet user appName,
        Event.DeployRollbackToRevision appName appName revision],
        some (GoError.NewInternalServerError err))
    | none =>
      match ops.SaveApp a user.Email with
      | some err =>
        ([Event.CheckPermAndGet user appName,
          Event.DeployRollbackToRevision appName appName revision,
          Event.SaveApp a user.Email],
          some (GoError.NewInternalServerError err))
      | none =>
        ([Event.CheckPermAndGet user appName,
          Event.DeployRollbackToRevision appName appName revision,
          Event.SaveApp a user.Email], none)

/-! ## Reading a trace -/

/-- The values sent on the error channel, in order. -/
def sends : List Event → List GoError
  | [] => []
  | Event.send err :: evs => err :: sends evs
  | _ :: evs => sends evs

/-- All effects of a call of `Deploy`: those before it returns, then those of
the goroutine. -/
def DeployResult.trace (r : DeployResult) : List Event :=
  r.sync ++ r.background.getD []

/-- The values the error channel receives over a whole call of `Deploy`. -/
def DeployResult.errChan (r : DeployResult) : List GoError :=
  sends r.trace

/-- A run of a release pod (a pod made by `spec.NewRunner`). -/
def Event.isReleaseRun : Event → Bool
  | Event.RunCommandBySpec (spec.Pod.NewRunner _ _ _ _ _ _) => true
  | _ => false

/-- A run of a build pod (a pod made by `spec.NewBuilder`). -/
def Event.isBuildRun : Event → Bool
  | Event.RunCommandBySpec (spec.Pod.NewBuilder _ _ _ _ _ _) => true
  | _ => false

/-- Any pod run. -/
def Event.isPodRun : Event → Bool
  | Event.RunCommandBySpec _ => true
  | _ => false

/-- A call of the gateway operation `CreateOrUpdateDeploy`. -/
def Event.isCreateOrUpdateDeploy : Event → Bool
  | Event.CreateOrUpdateDeploy _ => true
  | _ => false

/-- A call of the gateway operation `CreateOrUpdateCronJob`. -/
def Event.isCreateOrUpdateCronJob : Event → Bool
  | Event.CreateOrUpdateCronJob _ => true
  | _ => false

/-- A call of the gateway operation `ExposeDeploy`. -/
def Event.isExposeDeploy : Event → Bool
  | Event.ExposeDeploy _ _ _ => true
  | _ => false

/-- A call of any operation of the cluster gateway `K8sOperations`. -/
def Event.isGatewayCall : Event → Bool
  | Event.CreateOrUpdateDeploy _ => true
  | Event.CreateOrUpdateCronJob _ => true
  | Event.ExposeDeploy _ _ _ => true
  | Event.DeployRollbackToRevision _ _ _ => true
  | _ => false

/-- Sends on a buffered channel of the given capacity that nobody receives
from: `true` when every send of the trace finds room, `n` being the number of
values already buffered. -/
def neverBlocks (capacity : Nat) : Nat → List Event → Bool
  | _, [] => true
  | n, Event.send _ :: evs => decide (n < capacity) && neverBlocks capacity (n + 1) evs
  | n, _ :: evs => neverBlocks capacity n evs

/-- The validation stage of `Deploy` passes for the caller and yields the
application descriptor `a` (with its team filled in) and the config bundle. -/
def Validated (ops : DeployOperations) (user : User) (appName : String) (tarBall : TarBall)
    (a : App) (confFiles : DeployConfigFiles) : Prop :=
  ∃ a0 teamName, ops.Get appName = Except.ok a0 ∧ ops.TeamName appName = Except.ok teamName ∧
    a = { a0 with Team := teamName } ∧ ops.HasPermission user appName = true ∧
    ops.getDeployConfigFilesFromTarBall tarBall a.ProcessType = Except.ok confFiles

/-- The process-command table declares a non-empty release command. -/
def declaresRelease (confFiles : DeployConfigFiles) : Prop :=
  ∃ kvs cmd, confFiles.Procfile = some kvs ∧ kvs.lookup ProcfileReleaseCmd = some cmd ∧ cmd ≠ ""

/-! ## The pod execution engine (`k8s/client.go`) -/

namespace k8s

/-- The pod phases of the cluster API. -/
inductive PodPhase where
  | PodPending
  | PodRunning
  | PodSucceeded
  | PodFailed
  | PodUnknown
  deriving DecidableEq, Repr

/-- The terminated state of a container, `ContainerStateTerminated`, restricted
to the exit code. -/
structure ContainerStateTerminated where
  ExitCode : Int
  deriving DecidableEq, Repr

/-- The state of a container, `ContainerState`, restricted to `Terminated`: a
pointer that is nil (`none`) while the container is waiting or running, as
`PodList` tests before reading it. -/
structure ContainerState where
  Terminated : Option ContainerStateTerminated
  deriving DecidableEq, Repr

/-- The status of a container, restricted to its state. -/
structure ContainerStatus where
  State : ContainerState
  deriving DecidableEq, Repr

/-- The part of a pod returned by `Get` that the engine reads. -/
structure PodStatus where
  Phase : PodPhase
  ContainerStatuses : List ContainerStatus
  deriving DecidableEq, Repr

/-- The pod specification `deploy.PodSpec`, restricted to the fields read by
`PodRun` itself. -/
structure PodSpec where
  Namespace : String
  Name : String
  deriving DecidableEq, Repr

/-- The raw cluster API as one pod run sees it: the outcome of `Create`, the
answer to the `n`-th `Get` of the pod, the outcome of attaching to the logs (the
lines of the stream), and for each wait the number of timer ticks its poll
receives before the timeout elapses. -/
structure Cluster where
  Create : Option GoError
  Get : Nat → Except GoError PodStatus
  PodLogs : Except GoError (List String)
  startTicks : Nat
  endTicks : Nat

/-- The effects of a pod run, in program order. -/
inductive Event where
  | Create (podSpec : PodSpec)
  | Get (n : Nat)
  | PodLogs (ns name : String)
  | Copy (lines : List String)
  | sendExitCode (code : Int)
  | goKillPod
  | panic
  | closePipe
  | closeExitCodeChan
  deriving DecidableEq, Repr

/-- Modelled from the spec: `wait.PollImmediate` belongs to the cluster client
library, which is not among the sources.  The condition is evaluated at once and
then once per tick; an error of the condition ends the wait with that error
(whatever its boolean), `true` ends it with success, and when no tick is left
the wait ends with `ErrWaitTimeout`.  The condition is given the number of the
`Get` it performs; the result carries the number of the next one. -/
def PollImmediate (condition : Nat → Bool × Option GoError) : Nat → Nat → Option GoError × Nat
  | 0, i =>
    match condition i with
    | (_, some err) => (some err, i + 1)
    | (true, none) => (none, i + 1)
    | (false, none) => (some GoError.ErrWaitTimeout, i + 1)
  | ticks + 1, i =>
    match condition i with
    | (_, some err) => (some err, i + 1)
    | (true, none) => (none, i + 1)
    | (false, none) => PollImmediate condition ticks (i + 1)

/-- The condition polled by `waitPodStart`. -/
def waitPodStartCondition (c : Cluster) (i : Nat) : Bool × Option GoError :=
  match c.Get i with
  | Except.error err => (false, some err)
  | Except.ok p =>
    if p.Phase = PodPhase.PodFailed then (true, some GoError.ErrPodRunFailed)
    else (decide (p.Phase = PodPhase.PodRunning) || decide (p.Phase = PodPhase.PodSucceeded), none)

/-- The method `waitPodStart`, polling from the `i`-th `Get` on. -/
def waitPodStart (c : Cluster) (i : Nat) : Option GoError × Nat :=
  PollImmediate (waitPodStartCondition c) c.startTicks i

/-- The condition polled by `waitPodEnd`. -/
def waitPodEndCondition (c : Cluster) (i : Nat) : Bool × Option GoError :=
  match c.Get i with
  | Except.error err => (false, some err)
  | Except.ok p =>
    (decide (p.Phase = PodPhase.PodSucceeded) || decide (p.Phase = PodPhase.PodFailed), none)

/-- The method `waitPodEnd`, polling from the `i`-th `Get` on. -/
def waitPodEnd (c : Cluster) (i : Nat) : Option GoError × Nat :=
  PollImmediate (waitPodEndCondition c) c.endTicks i

/-- The loop of `podExitCode`: the first non-zero exit code, else `0`. The loop
reads `state.ExitCode` through the pointer `State.Terminated` without a nil
check: on a status that is not terminated the dereference panics (`none`). -/
def firstNonZeroExitCode : List ContainerStatus → Option Int
  | [] => some 0
  | containerStatus :: rest =>
    match containerStatus.State.Terminated with
    | none => none
    | some state =>
      if state.ExitCode ≠ 0 then some state.ExitCode
      else firstNonZeroExitCode rest

/-- The method `podExitCode`, reading the pod with the `i`-th `Get`: the value
it returns, or `none` when it panics. -/
def podExitCode (c : Cluster) (i : Nat) : Option Int :=
  match c.Get i with
  | Except.error _ => some 1
  | Except.ok p => firstNonZeroExitCode p.ContainerStatuses

/-- The `Get` calls numbered `i`, ..., `j - 1`. -/
def gets (i j : Nat) : List Event :=
  (List.range (j - i)).map (fun k => Event.Get (i + k))

/-- The body of the goroutine of `PodRun`, before its deferred calls. When
`podExitCode` panics, the operand of the send is never obtained: nothing is
sent and the body ends with the panic. -/
def podRunBody (c : Cluster) (podSpec : PodSpec) : List Event :=
  match waitPodStart c 0 with
  | (some _, i) => gets 0 i
  | (none, i) =>
    match c.PodLogs with
    | Except.error _ => gets 0 i ++ [Event.PodLogs podSpec.Namespace podSpec.Name]
    | Except.ok lines =>
      match waitPodEnd c i with
      | (some _, j) =>
        gets 0 i ++ [Event.PodLogs podSpec.Namespace podSpec.Name, Event.Copy lines] ++ gets i j
      | (none, j) =>
        match podExitCode c j with
        | some code =>
          gets 0 i ++ [Event.PodLogs podSpec.Namespace podSpec.Name, Event.Copy lines] ++
            gets i j ++ [Event.Get j, Event.sendExitCode code, Event.goKillPod]
        | none =>
          gets 0 i ++ [Event.PodLogs podSpec.Namespace podSpec.Name, Event.Copy lines] ++
            gets i j ++ [Event.Get j, Event.panic]

/-- The goroutine of `PodRun`: its body, then the deferred `w.Close()` and
`close(exitCodeChan)`, which also run while the goroutine panics (the process
ends after them, the panic being recovered nowhere). -/
def podRunTask (c : Cluster) (podSpec : PodSpec) : List Event :=
  podRunBody c podSpec ++ [Event.closePipe, Event.closeExitCodeChan]

/-- What a call of `PodRun` does: the error it returns, the effects before it
returns, and the effects of the goroutine when one is started. -/
structure PodRunResult where
  err : Option GoError
  sync : List Event
  task : Option (List Event)
  deriving DecidableEq, Repr

/-- The method `PodRun`. -/
def PodRun (c : Cluster) (podSpec : PodSpec) : PodRunResult :=
  match c.Create with
  | some err => { err := some err, sync := [Event.Create podSpec], task := none }
  | none => { err := none, sync := [Event.Create podSpec], task := some (podRunTask c podSpec) }

/-- The exit values delivered on the exit-status channel, in order. -/
def exitCodes : List Event → List Int
  | [] => []
  | Event.sendExitCode code :: evs => code :: exitCodes evs
  | _ :: evs => exitCodes evs

/-- Pod deletion is started only after an exit value has been delivered: `seen`
tells whether a value was delivered before the trace. -/
def killAfterExitCode : Bool → List Event → Bool
  | _, [] => true
  | _, Event.sendExitCode _ :: evs => killAfterExitCode true evs
  | seen, Event.goKillPod :: evs => seen && killAfterExitCode seen evs
  | seen, _ :: evs => killAfterExitCode seen evs

/-- Start-wait, log attachment and end-wait all succeed. -/
def runsToEnd (c : Cluster) : Prop :=
  (waitPodStart c 0).1 = none ∧ (∃ lines, c.PodLogs = Except.ok lines) ∧
    (waitPodEnd c (waitPodStart c 0).2).1 = none

end k8s

/-! ## Concrete scenarios -/

/-- A caller. -/
def developer : User := { Email := "dev@example.com" }

/-- The stored descriptor of the web application "sample". -/
def sampleApp : App :=
  { Name := "sample", Team := "", ProcessType := "web", VirtualHost := "sample.example.com" }

/-- The descriptor of "sample" once `Deploy` has filled in its team. -/
def sampleAppOfTeam : App := { sampleApp with Team := "platform" }

/-- The config bundle of an archive without release command. -/
def sampleConf : DeployConfigFiles :=
  { TeresaYaml := { Cron := { Schedule := "" } }, Procfile := some [("web", "python app.py")] }

/-- The pipeline configuration of the scenarios. -/
def sampleOptions : Options :=
  { SlugRunnerImage := "runner:1", SlugStoreImage := "store:1", SlugBuilderImage := "builder:1",
    BuildLimitCPU := "800m", BuildLimitMemory := "1Gi", RevisionHistoryLimit := 5 }

/-- Collaborators that all succeed for the application "sample". -/
def sampleOps : DeployOperations :=
  { Get := fun _ => Except.ok sampleApp
    TeamName := fun _ => Except.ok "platform"
    HasPermission := fun _ _ => true
    CheckPermAndGet := fun _ _ => Except.ok sampleAppOfTeam
    SaveApp := fun _ _ => none
    getDeployConfigFilesFromTarBall := fun _ _ => Except.ok sampleConf
    uidNew := "d1"
    UploadFile := fun _ _ => none
    RunCommandBySpec := fun _ => RunResult.value none
    CreateOrUpdateDeploy := fun _ => none
    CreateOrUpdateCronJob := fun _ => none
    ExposeDeploy := fun _ _ _ => none
    DeployRollbackToRevision := fun _ _ _ => none
    opts := sampleOptions }

/-- The build pod run reports an error. -/
def buildFailOps : DeployOperations :=
  { sampleOps with RunCommandBySpec := fun _ => RunResult.value (some (GoError.other 1)) }

/-- A config bundle whose process-command table declares a release command. -/
def releaseConf : DeployConfigFiles :=
  { TeresaYaml := { Cron := { Schedule := "" } },
    Procfile := some [("web", "python app.py"), ("release", "python manage.py migrate")] }

/-- The build pod run succeeds and the release pod run reports an error. -/
def releaseFailOps : DeployOperations :=
  { sampleOps with
    getDeployConfigFilesFromTarBall := fun _ _ => Except.ok releaseConf
    RunCommandBySpec := fun podSpec =>
      match podSpec with
      | spec.Pod.NewBuilder _ _ _ _ _ _ => RunResult.value none
      | spec.Pod.NewRunner _ _ _ _ _ _ => RunResult.value (some (GoError.other 2)) }

/-- The stored descriptor of the scheduled application "cron-job". -/
def cronApp : App :=
  { Name := "cron-job", Team := "", ProcessType := "cron", VirtualHost := "" }

/-- The descriptor of "cron-job" once `Deploy` has filled in its team. -/
def cronAppOfTeam : App := { cronApp with Team := "platform" }

/-- The config bundle of the scheduled scenario. -/
def cronConf : DeployConfigFiles :=
  { TeresaYaml := { Cron := { Schedule := "0 * * * *" } }, Procfile := some [("cron", "run.sh")] }

/-- Collaborators that all succeed for the application "cron-job". -/
def cronOps : DeployOperations :=
  { sampleOps with
    Get := fun _ => Except.ok cronApp
    getDeployConfigFilesFromTarBall := fun _ _ => Except.ok cronConf }

/-- The lines written to the output stream by the pipeline, in order. -/
def writes : List Event → List String
  | [] => []
  | Event.Fprintln line :: evs => line :: writes evs
  | _ :: evs => writes evs

/-- Upload, build, release (when declared), `CreateOrUpdateDeploy` and exposure
(for the process type web) all succeed on the long-running path: no collaborator
reports an error. -/
def longRunningStepsSucceed (ops : DeployOperations) (tarBall : TarBall) (appName : String)
    (a : App) (confFiles : DeployConfigFiles) (description deployId : String) : Prop :=
  ops.UploadFile (tarBallLocation a deployId) tarBall = none ∧
  (∀ e, ops.RunCommandBySpec (builderPod ops a deployId (buildDestOf appName deployId)) ≠
    RunResult.value (some e)) ∧
  (declaresRelease confFiles →
    ∀ e, ops.RunCommandBySpec (releasePod ops a deployId (slugURLOf appName deployId)) ≠
      RunResult.value (some e)) ∧
  ops.CreateOrUpdateDeploy (deploySpecOf ops a confFiles (slugURLOf appName deployId) description) =
    none ∧
  (a.ProcessType = app.ProcessTypeWeb → ops.ExposeDeploy a.Name a.Name a.VirtualHost = none)

/-- The effects that follow the validation stage of `Deploy`: minting the deploy
identifier, uploading the archive, running a pod, calling the cluster gateway. -/
def Event.isPipelineStep : Event → Bool
  | Event.uidNew => true
  | Event.Seek => true
  | Event.UploadFile _ => true
  | Event.RunCommandBySpec _ => true
  | Event.goCopy _ => true
  | Event.CreateOrUpdateDeploy _ => true
  | Event.CreateOrUpdateCronJob _ => true
  | Event.ExposeDeploy _ _ _ => true
  | Event.DeployRollbackToRevision _ _ _ => true
  | _ => false

/-- The application lookup fails. -/
def lookupFailOps : DeployOperations :=
  { sampleOps with Get := fun _ => Except.error (GoError.other 404) }

/-- The team lookup fails. -/
def teamFailOps : DeployOperations :=
  { sampleOps with TeamName := fun _ => Except.error (GoError.other 500) }

/-- The caller has no permission on the application. -/
def deniedOps : DeployOperations :=
  { sampleOps with HasPermission := fun _ _ => false }

/-- The config bundle of the archive cannot be parsed. -/
def badArchiveOps : DeployOperations :=
  { sampleOps with getDeployConfigFilesFromTarBall := fun _ _ => Except.error (GoError.other 22) }

/-- The artifact store rejects the upload. -/
def uploadFailOps : DeployOperations :=
  { sampleOps with UploadFile := fun _ _ => some (GoError.other 3) }

/-- The cluster rollback succeeds and the application record cannot be saved. -/
def saveFailOps : DeployOperations :=
  { sampleOps with SaveApp := fun _ _ => some (GoError.other 7) }

namespace k8s

/-- One of the two deferred closings of `PodRun`. -/
def Event.isClosing : Event → Bool
  | Event.closePipe => true
  | Event.closeExitCodeChan => true
  | _ => false

/-- A container that has terminated with the given exit code. -/
def terminatedWith (code : Int) : ContainerStatus :=
  { State := { Terminated := some { ExitCode := code } } }

/-- A container that has not terminated (waiting or running). -/
def notTerminated : ContainerStatus :=
  { State := { Terminated := none } }

/-- The pod submitted in the scenarios. -/
def buildPod : PodSpec := { Namespace := "sample", Name := "build-d1" }

/-- A pod that is pending, then running, then succeeds with exit code `0`. -/
def succeedingCluster : Cluster :=
  { Create := none
    Get := fun n =>
      if n = 0 then Except.ok { Phase := PodPhase.PodPending, ContainerStatuses := [] }
      else if n < 3 then Except.ok { Phase := PodPhase.PodRunning, ContainerStatuses := [] }
      else Except.ok { Phase := PodPhase.PodSucceeded, ContainerStatuses := [terminatedWith 0] }
    PodLogs := Except.ok ["-----> Build succeeded"]
    startTicks := 300
    endTicks := 300 }

/-- A pod that is already in phase Failed at the first poll of start-wait. -/
def failedEarlyCluster : Cluster :=
  { succeedingCluster with
    Get := fun _ =>
      Except.ok { Phase := PodPhase.PodFailed, ContainerStatuses := [terminatedWith 2] } }

end k8s

/-- The workload is created and its exposure fails. -/
def exposeFailOps : DeployOperations :=
  { sampleOps with ExposeDeploy := fun _ _ _ => some (GoError.other 5) }

namespace k8s

/-- A pod that stays pending until start-wait times out after two ticks. -/
def pendingCluster : Cluster :=
  { succeedingCluster with
    Get := fun _ => Except.ok { Phase := PodPhase.PodPending, ContainerStatuses := [] }
    startTicks := 2 }

/-- A cluster whose API fails on every read of the pod. -/
def unreachableCluster : Cluster :=
  { succeedingCluster with Get := fun _ => Except.error (GoError.other 503) }

end k8s

namespace k8s

/-- An observation of start-wait that ends the wait: an error of the cluster
API, or one of the phases Running, Succeeded and Failed. -/
def isDecisive : Except GoError PodStatus → Bool
  | Except.error _ => true
  | Except.ok p =>
    decide (p.Phase = PodPhase.PodRunning) || decide (p.Phase = PodPhase.PodSucceeded) ||
      decide (p.Phase = PodPhase.PodFailed)

/-- A pod that runs, then is found in phase Failed with no container status
(as after an eviction). -/
def evictedCluster : Cluster :=
  { succeedingCluster with
    Get := fun n =>
      if n = 0 then Except.ok { Phase := PodPhase.PodRunning, ContainerStatuses := [] }
      else Except.ok { Phase := PodPhase.PodFailed, ContainerStatuses := [] } }

/-- A pod that runs and succeeds, and whose status cannot be read afterwards. -/
def unreadableCluster : Cluster :=
  { succeedingCluster with
    Get := fun n =>
      if n = 0 then Except.ok { Phase := PodPhase.PodRunning, ContainerStatuses := [] }
      else if n = 1 then
        Except.ok { Phase := PodPhase.PodSucceeded, ContainerStatuses := [terminatedWith 0] }
      else Except.error (GoError.other 503) }

/-- A pod that runs, then fails: its second container exits with code `3`. -/
def crashedCluster : Cluster :=
  { succeedingCluster with
    Get := fun n =>
      if n = 0 then Except.ok { Phase := PodPhase.PodRunning, ContainerStatuses := [] }
      else
        Except.ok
          { Phase := PodPhase.PodFailed
            ContainerStatuses := [terminatedWith 0, terminatedWith 3, terminatedWith 9] } }

end k8s

/-- The error channel of every pod run is closed without a value. -/
def closedRunOps : DeployOperations :=
  { sampleOps with RunCommandBySpec := fun _ => RunResult.closed }

/-- The build pod run succeeds and the error channel of the release pod run is
closed without a value; the archive declares a release command. -/
def closedReleaseOps : DeployOperations :=
  { sampleOps with
    getDeployConfigFilesFromTarBall := fun _ _ => Except.ok releaseConf
    RunCommandBySpec := fun podSpec =>
      match podSpec with
      | spec.Pod.NewBuilder _ _ _ _ _ _ => RunResult.value none
      | spec.Pod.NewRunner _ _ _ _ _ _ => RunResult.closed }

namespace k8s

/-- A pod that runs, is found in phase Failed by the second poll of end-wait,
and whose container has not terminated when its status is read again. -/
def waitingCluster : Cluster :=
  { succeedingCluster with
    Get := fun n =>
      if n < 2 then Except.ok { Phase := PodPhase.PodRunning, ContainerStatuses := [] }
      else Except.ok { Phase := PodPhase.PodFailed, ContainerStatuses := [notTerminated] } }

/-- A pod that runs, then cannot be read any more: end-wait ends with the API
error. -/
def lostCluster : Cluster :=
  { succeedingCluster with
    Get := fun n =>
      if n = 0 then Except.ok { Phase := PodPhase.PodRunning, ContainerStatuses := [] }
      else Except.error (GoError.other 503) }

/-- A pod that keeps running until end-wait times out after two ticks. -/
def endlessCluster : Cluster :=
  { succeedingCluster with
    Get := fun _ => Except.ok { Phase := PodPhase.PodRunning, ContainerStatuses := [] }
    endTicks := 2 }

/-- An observation of end-wait that ends the wait: an error of the cluster API,
or one of the phases Succeeded and Failed. -/
def isEndDecisive : Except GoError PodStatus → Bool
  | Except.error _ => true
  | Except.ok p =>
    decide (p.Phase = PodPhase.PodSucceeded) || decide (p.Phase = PodPhase.PodFailed)

end k8s

end Teresa

/-! # Theorems -/

namespace Teresa

/-! ## Lemmas on traces and on the steps of the pipeline -/

theorem sends_append (xs ys : List Event) : sends (xs ++ ys) = sends xs ++ sends ys := by
  induction xs with
  | nil => rfl
  | cons x xs ih => cases x <;> simp [sends, ih]

theorem declaresRelease_iff (confFiles : DeployConfigFiles) :
    declaresRelease confFiles ↔
      (confFiles.Procfile ≠ none ∧ mapIndex confFiles.Procfile ProcfileReleaseCmd ≠ "") := by
  unfold declaresRelease mapIndex
  cases hp : confFiles.Procfile with
  | none => simp
  | some kvs =>
    cases hl : kvs.lookup ProcfileReleaseCmd with
    | none => simp [hl]
    | some cmd => simp [hl]

theorem Deploy_of_validated {ops : DeployOperations} {user : User} {appName : String}
    {tarBall : TarBall} {a : App} {confFiles : DeployConfigFiles} (description : String)
    (hv : Validated ops user appName tarBall a confFiles) :
    Deploy ops user appName tarBall description =
      { stream := true,
        sync := [Event.Get appName, Event.TeamName appName, Event.HasPermission user appName,
          Event.getDeployConfigFilesFromTarBall a.ProcessType, Event.uidNew],
        background :=
          some (deployTask ops appName tarBall a confFiles description ops.uidNew) } := by
  obtain ⟨a0, teamName, h1, h2, rfl, h3, h4⟩ := hv
  simp only [Deploy, h1, h2, h3]
  simp at h4
  simp [h4]

theorem podRun_fail {ops : DeployOperations} {p : spec.Pod} {e : GoError}
    (h : ops.RunCommandBySpec p = RunResult.value (some e)) :
    podRun ops p = ([Event.RunCommandBySpec p, Event.goCopy p], some GoError.ErrPodRunFail) := by
  simp [podRun, h]

theorem podRun_fst (ops : DeployOperations) (p : spec.Pod) :
    (podRun ops p).1 = [Event.RunCommandBySpec p, Event.goCopy p] := by
  unfold podRun
  split <;> rfl

theorem buildApp_upload_fail {ops : DeployOperations} {tarBall : TarBall} {a : App}
    {deployId buildDest : String} {err : GoError}
    (hup : ops.UploadFile (tarBallLocation a deployId) tarBall = some err) :
    buildApp ops tarBall a deployId buildDest =
      ([Event.Seek, Event.UploadFile (tarBallLocation a deployId),
        Event.Fprintln "The Deploy failed to upload the tarBall to slug storage"], some err) := by
  simp [buildApp, hup]

theorem buildApp_run_fail {ops : DeployOperations} {tarBall : TarBall} {a : App}
    {deployId buildDest : String} {e : GoError}
    (hup : ops.UploadFile (tarBallLocation a deployId) tarBall = none)
    (hrun : ops.RunCommandBySpec (builderPod ops a deployId buildDest) = RunResult.value (some e)) :
    buildApp ops tarBall a deployId buildDest =
      ([Event.Seek, Event.UploadFile (tarBallLocation a deployId),
        Event.RunCommandBySpec (builderPod ops a deployId buildDest),
        Event.goCopy (builderPod ops a deployId buildDest)], some GoError.ErrBuildFail) := by
  simp [buildApp, hup, podRun_fail hrun]

theorem buildApp_ok {ops : DeployOperations} {tarBall : TarBall} {a : App}
    {deployId buildDest : String}
    (h : (buildApp ops tarBall a deployId buildDest).2 = none) :
    buildApp ops tarBall a deployId buildDest =
      ([Event.Seek, Event.UploadFile (tarBallLocation a deployId),
        Event.RunCommandBySpec (builderPod ops a deployId buildDest),
        Event.goCopy (builderPod ops a deployId buildDest)], none) := by
  unfold buildApp at h ⊢
  cases hup : ops.UploadFile (tarBallLocation a deployId) tarBall with
  | some err => simp [hup] at h
  | none =>
    simp only [hup] at h ⊢
    cases hr : podRun ops (builderPod ops a deployId buildDest) with
    | mk evs r =>
      have hfst := podRun_fst ops (builderPod ops a deployId buildDest)
      rw [hr] at hfst
      simp only at hfst
      subst hfst
      cases r with
      | none => simp
      | some err =>
        rw [hr] at h
        by_cases he : err = GoError.ErrPodRunFail <;> simp [he] at h

theorem runReleaseCmd_fail {ops : DeployOperations} {a : App} {deployId slugURL : String}
    {e : GoError}
    (hrun : ops.RunCommandBySpec (releasePod ops a deployId slugURL) = RunResult.value (some e)) :
    runReleaseCmd ops a deployId slugURL =
      ([Event.Fprintln "Running release command",
        Event.RunCommandBySpec (releasePod ops a deployId slugURL),
        Event.goCopy (releasePod ops a deployId slugURL)], some GoError.ErrReleaseFail) := by
  simp [runReleaseCmd, podRun_fail hrun]

theorem runReleaseCmd_fst (ops : DeployOperations) (a : App) (deployId slugURL : String) :
    (runReleaseCmd ops a deployId slugURL).1 =
      [Event.Fprintln "Running release command",
        Event.RunCommandBySpec (releasePod ops a deployId slugURL),
        Event.goCopy (releasePod ops a deployId slugURL)] := by
  unfold runReleaseCmd
  have hfst := podRun_fst ops (releasePod ops a deployId slugURL)
  cases hr : podRun ops (releasePod ops a deployId slugURL) with
  | mk evs r =>
    rw [hr] at hfst
    simp only at hfst
    subst hfst
    cases r <;> rfl

/-! ## Deploy: build failure -/

/-- C1: when validation passes, the upload succeeds and the build pod run
delivers a non-nil value on its error channel, the error channel of `Deploy`
receives exactly `ErrBuildFail` (whatever the run error was), and the call runs
no release pod and calls none of `CreateOrUpdateDeploy`, `CreateOrUpdateCronJob`
and `ExposeDeploy`. -/
theorem deploy_build_failure_sends_ErrBuildFail (ops : DeployOperations) (user : User)
    (appName : String) (tarBall : TarBall) (description : String) (a : App)
    (confFiles : DeployConfigFiles) (e : GoError)
    (hv : Validated ops user appName tarBall a confFiles)
    (hup : ops.UploadFile (tarBallLocation a ops.uidNew) tarBall = none)
    (hrun : ops.RunCommandBySpec (builderPod ops a ops.uidNew (buildDestOf appName ops.uidNew)) =
      RunResult.value (some e)) :
    (Deploy ops user appName tarBall description).errChan = [GoError.ErrBuildFail] ∧
    ∀ ev ∈ (Deploy ops user appName tarBall description).trace,
      ev.isReleaseRun = false ∧ ev.isCreateOrUpdateDeploy = false ∧
        ev.isCreateOrUpdateCronJob = false ∧ ev.isExposeDeploy = false := by
  rw [Deploy_of_validated description hv]
  simp [DeployResult.errChan, DeployResult.trace, deployTask, buildApp_run_fail hup hrun, sends,
    builderPod, Event.isReleaseRun, Event.isCreateOrUpdateDeploy, Event.isCreateOrUpdateCronJob,
    Event.isExposeDeploy]

/-- The build of "sample" fails with a collaborator error: the channel holds
`ErrBuildFail` and nothing after the build is called. -/
theorem deploy_build_failure_sends_ErrBuildFail_witness :
    (Deploy buildFailOps developer "sample" [] "first").errChan = [GoError.ErrBuildFail] ∧
    ∀ ev ∈ (Deploy buildFailOps developer "sample" [] "first").trace,
      ev.isReleaseRun = false ∧ ev.isCreateOrUpdateDeploy = false ∧
        ev.isCreateOrUpdateCronJob = false ∧ ev.isExposeDeploy = false :=
  deploy_build_failure_sends_ErrBuildFail buildFailOps developer "sample" [] "first"
    sampleAppOfTeam sampleConf (GoError.other 1)
    ⟨sampleApp, "platform", rfl, rfl, rfl, rfl, rfl⟩ rfl rfl

/-! ## Deploy: the release step -/

theorem deployTask_long_running {ops : DeployOperations} {appName : String} {tarBall : TarBall}
    {a : App} {confFiles : DeployConfigFiles} {description deployId : String}
    (hlong : a.ProcessType ≠ app.ProcessTypeCron)
    (hbuild : (buildApp ops tarBall a deployId (buildDestOf appName deployId)).2 = none) :
    deployTask ops appName tarBall a confFiles description deployId =
      (buildApp ops tarBall a deployId (buildDestOf appName deployId)).1 ++
        createOrUpdateDeploy ops a confFiles (slugURLOf appName deployId) description deployId ++
        [Event.Close] := by
  unfold deployTask
  simp only [buildApp_ok hbuild, if_neg hlong]

theorem deployTask_cron {ops : DeployOperations} {appName : String} {tarBall : TarBall}
    {a : App} {confFiles : DeployConfigFiles} {description deployId : String}
    (hcron : a.ProcessType = app.ProcessTypeCron)
    (hbuild : (buildApp ops tarBall a deployId (buildDestOf appName deployId)).2 = none) :
    deployTask ops appName tarBall a confFiles description deployId =
      (buildApp ops tarBall a deployId (buildDestOf appName deployId)).1 ++
        createOrUpdateCronJob ops a confFiles (slugURLOf appName deployId) description ++
        [Event.Close] := by
  unfold deployTask
  simp only [buildApp_ok hbuild, if_pos hcron]

theorem createOrUpdateDeploy_no_release {ops : DeployOperations} {a : App}
    {confFiles : DeployConfigFiles} {slugURL description deployId : String}
    (h : ¬ declaresRelease confFiles) :
    createOrUpdateDeploy ops a confFiles slugURL description deployId =
      createOrUpdateDeployTail ops a confFiles slugURL description := by
  rw [declaresRelease_iff] at h
  unfold createOrUpdateDeploy
  simp only [if_neg h]

theorem createOrUpdateDeploy_release {ops : DeployOperations} {a : App}
    {confFiles : DeployConfigFiles} {slugURL description deployId : String}
    (h : declaresRelease confFiles) :
    createOrUpdateDeploy ops a confFiles slugURL description deployId =
      match runReleaseCmd ops a deployId slugURL with
      | (evs, some err) =>
        evs ++ [Event.send err,
          Event.logError err ("Running release command " ++
            mapIndex confFiles.Procfile ProcfileReleaseCmd ++ " in app " ++ a.Name)]
      | (evs, none) => evs ++ createOrUpdateDeployTail ops a confFiles slugURL description := by
  rw [declaresRelease_iff] at h
  unfold createOrUpdateDeploy
  simp only [if_pos h]

/-- C2: for a long-running application whose process-command table declares a
non-empty release command, once validation and the build step have succeeded, a
release pod run that delivers a non-nil value makes the error channel of
`Deploy` receive exactly `ErrReleaseFail`; the release pod was run, and neither
`CreateOrUpdateDeploy` nor `ExposeDeploy` is called. -/
theorem deploy_release_failure_sends_ErrReleaseFail (ops : DeployOperations) (user : User)
    (appName : String) (tarBall : TarBall) (description : String) (a : App)
    (confFiles : DeployConfigFiles) (e : GoError)
    (hv : Validated ops user appName tarBall a confFiles)
    (hlong : a.ProcessType ≠ app.ProcessTypeCron)
    (hrel : declaresRelease confFiles)
    (hbuild : (buildApp ops tarBall a ops.uidNew (buildDestOf appName ops.uidNew)).2 = none)
    (hrun : ops.RunCommandBySpec (releasePod ops a ops.uidNew (slugURLOf appName ops.uidNew)) =
      RunResult.value (some e)) :
    (Deploy ops user appName tarBall description).errChan = [GoError.ErrReleaseFail] ∧
    Event.RunCommandBySpec (releasePod ops a ops.uidNew (slugURLOf appName ops.uidNew)) ∈
      (Deploy ops user appName tarBall description).trace ∧
    ∀ ev ∈ (Deploy ops user appName tarBall description).trace,
      ev.isCreateOrUpdateDeploy = false ∧ ev.isExposeDeploy = false := by
  rw [Deploy_of_validated description hv]
  simp [DeployResult.errChan, DeployResult.trace, deployTask_long_running hlong hbuild,
    buildApp_ok hbuild, createOrUpdateDeploy_release hrel, runReleaseCmd_fail hrun, sends,
    Event.isCreateOrUpdateDeploy, Event.isExposeDeploy]

/-- The release command of "sample" fails after a successful build: the channel
holds `ErrReleaseFail` and the workload is never created. -/
theorem deploy_release_failure_sends_ErrReleaseFail_witness :
    (Deploy releaseFailOps developer "sample" [] "first").errChan = [GoError.ErrReleaseFail] ∧
    Event.RunCommandBySpec (releasePod releaseFailOps sampleAppOfTeam releaseFailOps.uidNew
        (slugURLOf "sample" releaseFailOps.uidNew)) ∈
      (Deploy releaseFailOps developer "sample" [] "first").trace ∧
    ∀ ev ∈ (Deploy releaseFailOps developer "sample" [] "first").trace,
      ev.isCreateOrUpdateDeploy = false ∧ ev.isExposeDeploy = false :=
  deploy_release_failure_sends_ErrReleaseFail releaseFailOps developer "sample" [] "first"
    sampleAppOfTeam releaseConf (GoError.other 2)
    ⟨sampleApp, "platform", rfl, rfl, rfl, rfl, rfl⟩ (by decide)
    ⟨_, "python manage.py migrate", rfl, by decide, by decide⟩ rfl rfl

theorem exposeApp_fst (ops : DeployOperations) (a : App) :
    (exposeApp ops a).1 =
      if a.ProcessType = app.ProcessTypeWeb then [Event.ExposeDeploy a.Name a.Name a.VirtualHost]
      else [] := by
  unfold exposeApp
  by_cases hw : a.ProcessType = app.ProcessTypeWeb
  · simp only [hw, ne_eq, not_true_eq_false, if_false, if_true]
    split <;> rfl
  · simp [hw]

theorem createOrUpdateDeployTail_head (ops : DeployOperations) (a : App)
    (confFiles : DeployConfigFiles) (slugURL description : String) :
    ∃ rest, createOrUpdateDeployTail ops a confFiles slugURL description =
        Event.CreateOrUpdateDeploy (deploySpecOf ops a confFiles slugURL description) :: rest ∧
      ∀ ev ∈ rest, ev.isPodRun = false := by
  unfold createOrUpdateDeployTail
  cases ops.CreateOrUpdateDeploy (deploySpecOf ops a confFiles slugURL description) with
  | some err => exact ⟨_, rfl, by simp [Event.isPodRun]⟩
  | none =>
    have hfst := exposeApp_fst ops a
    cases hx : exposeApp ops a with
    | mk evs r =>
      rw [hx] at hfst
      simp only at hfst
      subst hfst
      cases r with
      | none =>
        refine ⟨_, rfl, ?_⟩
        intro ev hev
        by_cases hw : a.ProcessType = app.ProcessTypeWeb <;>
          simp [hw] at hev <;> rcases hev with rfl | rfl <;> rfl
      | some err =>
        refine ⟨_, rfl, ?_⟩
        intro ev hev
        by_cases hw : a.ProcessType = app.ProcessTypeWeb <;>
          simp [hw] at hev <;> rcases hev with rfl | rfl | rfl <;> rfl

theorem isReleaseRun_le_isPodRun {ev : Event} (h : ev.isPodRun = false) :
    ev.isReleaseRun = false := by
  cases ev <;> simp_all [Event.isPodRun, Event.isReleaseRun]

/-- C3: on the long-running path, after validation and a successful build, a
release pod is run if and only if the process-command table has a non-empty
entry under "release"; when the table is nil, or the entry is missing or empty,
the goroutine performs the build and its very next effect is the call of
`CreateOrUpdateDeploy`, with no pod run after it. -/
theorem deploy_release_run_iff_declared (ops : DeployOperations) (user : User)
    (appName : String) (tarBall : TarBall) (description : String) (a : App)
    (confFiles : DeployConfigFiles)
    (hv : Validated ops user appName tarBall a confFiles)
    (hlong : a.ProcessType ≠ app.ProcessTypeCron)
    (hbuild : (buildApp ops tarBall a ops.uidNew (buildDestOf appName ops.uidNew)).2 = none) :
    ((∃ ev ∈ (Deploy ops user appName tarBall description).trace, ev.isReleaseRun = true) ↔
      ∃ kvs cmd, confFiles.Procfile = some kvs ∧ kvs.lookup "release" = some cmd ∧ cmd ≠ "") ∧
    ((confFiles.Procfile = none ∨ ∃ kvs, confFiles.Procfile = some kvs ∧
        (kvs.lookup "release" = none ∨ kvs.lookup "release" = some "")) →
      ∃ rest, (Deploy ops user appName tarBall description).background =
          some ([Event.Seek, Event.UploadFile (tarBallLocation a ops.uidNew),
            Event.RunCommandBySpec (builderPod ops a ops.uidNew (buildDestOf appName ops.uidNew)),
            Event.goCopy (builderPod ops a ops.uidNew (buildDestOf appName ops.uidNew)),
            Event.CreateOrUpdateDeploy
              (deploySpecOf ops a confFiles (slugURLOf appName ops.uidNew) description)] ++ rest) ∧
        ∀ ev ∈ rest, ev.isPodRun = false) := by
  rw [Deploy_of_validated description hv]
  obtain ⟨tl, htl, htlrun⟩ :=
    createOrUpdateDeployTail_head ops a confFiles (slugURLOf appName ops.uidNew) description
  have hnone : ¬ declaresRelease confFiles →
      deployTask ops appName tarBall a confFiles description ops.uidNew =
        [Event.Seek, Event.UploadFile (tarBallLocation a ops.uidNew),
          Event.RunCommandBySpec (builderPod ops a ops.uidNew (buildDestOf appName ops.uidNew)),
          Event.goCopy (builderPod ops a ops.uidNew (buildDestOf appName ops.uidNew)),
          Event.CreateOrUpdateDeploy
            (deploySpecOf ops a confFiles (slugURLOf appName ops.uidNew) description)] ++
          (tl ++ [Event.Close]) := by
    intro hno
    rw [deployTask_long_running hlong hbuild, buildApp_ok hbuild,
      createOrUpdateDeploy_no_release hno, htl]
    simp
  have htl2 : ∀ ev ∈ tl ++ [Event.Close], ev.isPodRun = false := by
    intro ev hev
    rcases List.mem_append.1 hev with h | h
    · exact htlrun ev h
    · simp at h
      subst h
      rfl
  constructor
  · constructor
    · rintro ⟨ev, hev, hrel⟩
      by_contra hno
      have hno2 : ¬ declaresRelease confFiles := hno
      simp only [DeployResult.trace, Option.getD_some, hnone hno2] at hev
      have : ev.isReleaseRun = false := by
        simp only [List.mem_append, List.mem_cons, List.mem_singleton, List.not_mem_nil,
          or_false] at hev
        rcases hev with (rfl | rfl | rfl | rfl | rfl) | (rfl | rfl | rfl | rfl | rfl) | h | rfl
        all_goals first
          | rfl
          | exact isReleaseRun_le_isPodRun (htlrun _ h)
      rw [this] at hrel
      exact Bool.noConfusion hrel
    · intro hdecl
      have hdecl2 : declaresRelease confFiles := hdecl
      refine ⟨Event.RunCommandBySpec
        (releasePod ops a ops.uidNew (slugURLOf appName ops.uidNew)), ?_, rfl⟩
      have hfst := runReleaseCmd_fst ops a ops.uidNew (slugURLOf appName ops.uidNew)
      simp only [DeployResult.trace, Option.getD_some, deployTask_long_running hlong hbuild,
        createOrUpdateDeploy_release hdecl2]
      cases hr : runReleaseCmd ops a ops.uidNew (slugURLOf appName ops.uidNew) with
      | mk evs r =>
        rw [hr] at hfst
        simp only at hfst
        subst hfst
        cases r <;> simp
  · intro habsent
    have hno : ¬ declaresRelease confFiles := by
      rintro ⟨kvs, cmd, hp, hl, hne⟩
      rcases habsent with h | ⟨kvs2, hp2, h | h⟩
      · rw [h] at hp
        exact Option.noConfusion hp
      · rw [hp] at hp2
        cases hp2
        have hl2 : kvs.lookup "release" = some cmd := hl
        rw [h] at hl2
        exact Option.noConfusion hl2
      · rw [hp] at hp2
        cases hp2
        have hl2 : kvs.lookup "release" = some cmd := hl
        rw [h] at hl2
        cases hl2
        exact hne rfl
    exact ⟨tl ++ [Event.Close], by rw [hnone hno], htl2⟩

/-- The archive of "sample" declares no release command: the build is followed
at once by `CreateOrUpdateDeploy`. -/
theorem deploy_release_run_iff_declared_witness :
    ((∃ ev ∈ (Deploy sampleOps developer "sample" [] "first").trace, ev.isReleaseRun = true) ↔
      ∃ kvs cmd, sampleConf.Procfile = some kvs ∧ kvs.lookup "release" = some cmd ∧ cmd ≠ "") ∧
    ((sampleConf.Procfile = none ∨ ∃ kvs, sampleConf.Procfile = some kvs ∧
        (kvs.lookup "release" = none ∨ kvs.lookup "release" = some "")) →
      ∃ rest, (Deploy sampleOps developer "sample" [] "first").background =
          some ([Event.Seek, Event.UploadFile (tarBallLocation sampleAppOfTeam sampleOps.uidNew),
            Event.RunCommandBySpec
              (builderPod sampleOps sampleAppOfTeam sampleOps.uidNew
                (buildDestOf "sample" sampleOps.uidNew)),
            Event.goCopy
              (builderPod sampleOps sampleAppOfTeam sampleOps.uidNew
                (buildDestOf "sample" sampleOps.uidNew)),
            Event.CreateOrUpdateDeploy
              (deploySpecOf sampleOps sampleAppOfTeam sampleConf
                (slugURLOf "sample" sampleOps.uidNew) "first")] ++ rest) ∧
        ∀ ev ∈ rest, ev.isPodRun = false) :=
  deploy_release_run_iff_declared sampleOps developer "sample" [] "first" sampleAppOfTeam
    sampleConf ⟨sampleApp, "platform", rfl, rfl, rfl, rfl, rfl⟩ (by decide) rfl

/-! ## Deploy: the scheduled path -/

theorem splitChars_ne_nil (sep : Char) (cs : List Char) : splitChars sep cs ≠ [] := by
  cases cs with
  | nil => simp [splitChars]
  | cons c cs =>
    unfold splitChars
    by_cases h : c = sep
    · simp [h]
    · simp only [h, if_false]
      split <;> simp

theorem splitChars_intercalate (sep : Char) (cs : List Char) :
    List.intercalate [sep] (splitChars sep cs) = cs := by
  induction cs with
  | nil => simp [splitChars, List.intercalate]
  | cons c cs ih =>
    unfold splitChars
    by_cases h : c = sep
    · simp only [h, if_true]
      have hne := splitChars_ne_nil sep cs
      cases hs : splitChars sep cs with
      | nil => exact absurd hs hne
      | cons w ws =>
        rw [hs] at ih
        simp [List.intercalate, List.intersperse] at ih ⊢
        exact ih
    · simp only [h, if_false]
      cases hs : splitChars sep cs with
      | nil => exact absurd hs (splitChars_ne_nil sep cs)
      | cons w ws =>
        rw [hs] at ih
        cases ws with
        | nil => simp [List.intercalate, List.intersperse] at ih ⊢; exact ih
        | cons w2 ws2 => simp [List.intercalate, List.intersperse] at ih ⊢; exact ih

theorem splitChars_no_sep (sep : Char) (cs : List Char) :
    ∀ w ∈ splitChars sep cs, sep ∉ w := by
  induction cs with
  | nil => simp [splitChars]
  | cons c cs ih =>
    unfold splitChars
    by_cases h : c = sep
    · simp only [h, if_true]
      intro w hw
      rcases List.mem_cons.1 hw with rfl | hw
      · simp
      · exact ih w hw
    · simp only [h, if_false]
      cases hs : splitChars sep cs with
      | nil => simp [Ne.symm h]
      | cons w ws =>
        rw [hs] at ih
        intro x hx
        rcases List.mem_cons.1 hx with rfl | hx
        · have := ih w (List.mem_cons_self _ _)
          simp [Ne.symm h, this]
        · exact ih x (List.mem_cons_of_mem _ hx)

/-- C4: for an application of process type cron, after validation and a
successful build, `Deploy` calls `CreateOrUpdateCronJob` exactly once, with the
specification made from the schedule of the manifest and from the cron command
of the process-command table split at single spaces (the pieces contain no
space and give the command back when joined with spaces; "run.sh" gives the
single argument "run.sh"); no release pod is run and neither
`CreateOrUpdateDeploy` nor `ExposeDeploy` is called. -/
theorem deploy_cron_creates_one_cronjob (ops : DeployOperations) (user : User)
    (appName : String) (tarBall : TarBall) (description : String) (a : App)
    (confFiles : DeployConfigFiles)
    (hv : Validated ops user appName tarBall a confFiles)
    (hcron : a.ProcessType = app.ProcessTypeCron)
    (hbuild : (buildApp ops tarBall a ops.uidNew (buildDestOf appName ops.uidNew)).2 = none) :
    (Deploy ops user appName tarBall description).trace.filter Event.isCreateOrUpdateCronJob =
      [Event.CreateOrUpdateCronJob
        { description := description,
          slugURL := slugURLOf appName ops.uidNew,
          schedule := confFiles.TeresaYaml.Cron.Schedule,
          imgs := { Runner := ops.opts.SlugRunnerImage, Store := ops.opts.SlugStoreImage },
          a := a,
          args := stringsSplitSpace (mapIndex confFiles.Procfile app.ProcessTypeCron) }] ∧
    (List.intercalate [' ']
        ((stringsSplitSpace (mapIndex confFiles.Procfile app.ProcessTypeCron)).map String.data) =
        (mapIndex confFiles.Procfile app.ProcessTypeCron).data ∧
      ∀ w ∈ stringsSplitSpace (mapIndex confFiles.Procfile app.ProcessTypeCron), ' ' ∉ w.data) ∧
    stringsSplitSpace "run.sh" = ["run.sh"] ∧
    ∀ ev ∈ (Deploy ops user appName tarBall description).trace,
      ev.isReleaseRun = false ∧ ev.isCreateOrUpdateDeploy = false ∧
        ev.isExposeDeploy = false := by
  rw [Deploy_of_validated description hv]
  refine ⟨?_, ⟨?_, ?_⟩, by decide, ?_⟩
  · simp only [DeployResult.trace, Option.getD_some, deployTask_cron hcron hbuild,
      buildApp_ok hbuild, createOrUpdateCronJob]
    cases ops.CreateOrUpdateCronJob
      (cronSpecOf ops a confFiles (slugURLOf appName ops.uidNew) description) <;>
      simp [Event.isCreateOrUpdateCronJob, cronSpecOf]
  · simp only [stringsSplitSpace, List.map_map]
    have h : (String.data ∘ String.mk) = (id : List Char → List Char) := by
      funext l
      rfl
    rw [h, List.map_id]
    exact splitChars_intercalate _ _
  · intro w hw
    simp only [stringsSplitSpace, List.mem_map] at hw
    obtain ⟨l, hl, rfl⟩ := hw
    exact splitChars_no_sep _ _ l hl
  · simp only [DeployResult.trace, Option.getD_some, deployTask_cron hcron hbuild,
      buildApp_ok hbuild, createOrUpdateCronJob]
    cases ops.CreateOrUpdateCronJob
      (cronSpecOf ops a confFiles (slugURLOf appName ops.uidNew) description) <;>
      simp [Event.isReleaseRun, Event.isCreateOrUpdateDeploy, Event.isExposeDeploy, builderPod]

/-- The scenario "cron-job": schedule "0 * * * *" and command "run.sh" give
exactly one scheduled-job specification with that schedule and the argument
list ["run.sh"], and the long-running path is never taken. -/
theorem deploy_cron_creates_one_cronjob_witness :
    (Deploy cronOps developer "cron-job" [] "nightly").trace.filter
        Event.isCreateOrUpdateCronJob =
      [Event.CreateOrUpdateCronJob
        { description := "nightly",
          slugURL := "deploys/cron-job/d1/out/slug.tgz",
          schedule := "0 * * * *",
          imgs := { Runner := "runner:1", Store := "store:1" },
          a := cronAppOfTeam,
          args := ["run.sh"] }] ∧
    ∀ ev ∈ (Deploy cronOps developer "cron-job" [] "nightly").trace,
      ev.isReleaseRun = false ∧ ev.isCreateOrUpdateDeploy = false ∧
        ev.isExposeDeploy = false :=
  have h := deploy_cron_creates_one_cronjob cronOps developer "cron-job" [] "nightly"
    cronAppOfTeam cronConf ⟨cronApp, "platform", rfl, rfl, rfl, rfl, rfl⟩ rfl rfl
  ⟨h.1, h.2.2.2⟩

/-! ## Deploy: the success line and exposure -/

theorem successLine_ne_release (a : App) : "Running release command" ≠ successLine a := by
  intro h
  have h2 := congrArg String.data h
  simp [successLine] at h2

theorem successLine_ne_upload (a : App) :
    "The Deploy failed to upload the tarBall to slug storage" ≠ successLine a := by
  intro h
  have h2 := congrArg String.data h
  simp [successLine] at h2

theorem buildApp_snd_none_iff (ops : DeployOperations) (tarBall : TarBall) (a : App)
    (deployId buildDest : String) :
    (buildApp ops tarBall a deployId buildDest).2 = none ↔
      (ops.UploadFile (tarBallLocation a deployId) tarBall = none ∧
        ∀ e, ops.RunCommandBySpec (builderPod ops a deployId buildDest) ≠
          RunResult.value (some e)) := by
  unfold buildApp podRun
  rcases hup : ops.UploadFile (tarBallLocation a deployId) tarBall with _ | e0
  · rcases hrun : ops.RunCommandBySpec (builderPod ops a deployId buildDest) with (_ | e1) | _ <;>
      simp
  · simp

theorem runReleaseCmd_snd_none_iff (ops : DeployOperations) (a : App)
    (deployId slugURL : String) :
    (runReleaseCmd ops a deployId slugURL).2 = none ↔
      ∀ e, ops.RunCommandBySpec (releasePod ops a deployId slugURL) ≠
        RunResult.value (some e) := by
  unfold runReleaseCmd podRun
  rcases hrun : ops.RunCommandBySpec (releasePod ops a deployId slugURL) with (_ | e1) | _ <;>
    simp

theorem exposeApp_snd_none_iff (ops : DeployOperations) (a : App) :
    (exposeApp ops a).2 = none ↔
      (a.ProcessType = app.ProcessTypeWeb →
        ops.ExposeDeploy a.Name a.Name a.VirtualHost = none) := by
  unfold exposeApp
  by_cases hw : a.ProcessType = app.ProcessTypeWeb
  · rcases hx : ops.ExposeDeploy a.Name a.Name a.VirtualHost with _ | e <;> simp [hw]
  · simp [hw]

theorem tail_create_fail {ops : DeployOperations} {a : App} {confFiles : DeployConfigFiles}
    {slugURL description : String} {err : GoError}
    (hc : ops.CreateOrUpdateDeploy (deploySpecOf ops a confFiles slugURL description) = some err) :
    createOrUpdateDeployTail ops a confFiles slugURL description =
      [Event.CreateOrUpdateDeploy (deploySpecOf ops a confFiles slugURL description),
        Event.send err, Event.logError err ("Creating deploy app " ++ a.Name)] := by
  simp [createOrUpdateDeployTail, hc]

theorem tail_not_web {ops : DeployOperations} {a : App} {confFiles : DeployConfigFiles}
    {slugURL description : String}
    (hc : ops.CreateOrUpdateDeploy (deploySpecOf ops a confFiles slugURL description) = none)
    (hw : a.ProcessType ≠ app.ProcessTypeWeb) :
    createOrUpdateDeployTail ops a confFiles slugURL description =
      [Event.CreateOrUpdateDeploy (deploySpecOf ops a confFiles slugURL description),
        Event.Fprintln (successLine a)] := by
  simp [createOrUpdateDeployTail, hc, exposeApp, hw]

theorem tail_expose_fail {ops : DeployOperations} {a : App} {confFiles : DeployConfigFiles}
    {slugURL description : String} {err : GoError}
    (hc : ops.CreateOrUpdateDeploy (deploySpecOf ops a confFiles slugURL description) = none)
    (hw : a.ProcessType = app.ProcessTypeWeb)
    (hx : ops.ExposeDeploy a.Name a.Name a.VirtualHost = some err) :
    createOrUpdateDeployTail ops a confFiles slugURL description =
      [Event.CreateOrUpdateDeploy (deploySpecOf ops a confFiles slugURL description),
        Event.ExposeDeploy a.Name a.Name a.VirtualHost,
        Event.send err, Event.logError err ("Exposing service " ++ a.Name)] := by
  simp [createOrUpdateDeployTail, hc, exposeApp, hw, hx]

theorem tail_expose_ok {ops : DeployOperations} {a : App} {confFiles : DeployConfigFiles}
    {slugURL description : String}
    (hc : ops.CreateOrUpdateDeploy (deploySpecOf ops a confFiles slugURL description) = none)
    (hw : a.ProcessType = app.ProcessTypeWeb)
    (hx : ops.ExposeDeploy a.Name a.Name a.VirtualHost = none) :
    createOrUpdateDeployTail ops a confFiles slugURL description =
      [Event.CreateOrUpdateDeploy (deploySpecOf ops a confFiles slugURL description),
        Event.ExposeDeploy a.Name a.Name a.VirtualHost,
        Event.Fprintln (successLine a)] := by
  simp [createOrUpdateDeployTail, hc, exposeApp, hw, hx]


theorem longRunningStepsSucceed_iff (ops : DeployOperations) (tarBall : TarBall)
    (appName : String) (a : App) (confFiles : DeployConfigFiles) (description deployId : String) :
    longRunningStepsSucceed ops tarBall appName a confFiles description deployId ↔
      ((buildApp ops tarBall a deployId (buildDestOf appName deployId)).2 = none ∧
        (declaresRelease confFiles →
          (runReleaseCmd ops a deployId (slugURLOf appName deployId)).2 = none) ∧
        ops.CreateOrUpdateDeploy
          (deploySpecOf ops a confFiles (slugURLOf appName deployId) description) = none ∧
        (a.ProcessType = app.ProcessTypeWeb →
          ops.ExposeDeploy a.Name a.Name a.VirtualHost = none)) := by
  unfold longRunningStepsSucceed
  rw [buildApp_snd_none_iff, runReleaseCmd_snd_none_iff]
  tauto

/-- C5: for a long-running application that passes validation: when upload,
build, release (if declared), `CreateOrUpdateDeploy` and exposure all succeed,
the success line "The app <name> has been successfully deployed" is the last
line the pipeline writes, it is written exactly once, and the error channel
receives nothing; when one of these steps fails the line is not written.
`ExposeDeploy` is called at most once, only for the process type web and only
after a call of `CreateOrUpdateDeploy` that succeeded, and when it fails no
gateway call follows it. -/
theorem deploy_success_line (ops : DeployOperations) (user : User)
    (appName : String) (tarBall : TarBall) (description : String) (a : App)
    (confFiles : DeployConfigFiles)
    (hv : Validated ops user appName tarBall a confFiles)
    (hlong : a.ProcessType ≠ app.ProcessTypeCron) :
    (longRunningStepsSucceed ops tarBall appName a confFiles description ops.uidNew →
      (writes (Deploy ops user appName tarBall description).trace).getLast? =
          some (successLine a) ∧
        (writes (Deploy ops user appName tarBall description).trace).count (successLine a) = 1 ∧
        (Deploy ops user appName tarBall description).errChan = []) ∧
    (¬ longRunningStepsSucceed ops tarBall appName a confFiles description ops.uidNew →
      successLine a ∉ writes (Deploy ops user appName tarBall description).trace) ∧
    (∀ ev ∈ (Deploy ops user appName tarBall description).trace, ev.isExposeDeploy = true →
      a.ProcessType = app.ProcessTypeWeb ∧
        ev = Event.ExposeDeploy a.Name a.Name a.VirtualHost ∧
        ops.CreateOrUpdateDeploy
          (deploySpecOf ops a confFiles (slugURLOf appName ops.uidNew) description) = none ∧
        Event.CreateOrUpdateDeploy
            (deploySpecOf ops a confFiles (slugURLOf appName ops.uidNew) description) ∈
          (Deploy ops user appName tarBall description).trace.takeWhile
            (fun ev => !ev.isExposeDeploy)) ∧
    ((Deploy ops user appName tarBall description).trace.filter Event.isExposeDeploy).length ≤ 1 ∧
    (∀ err, ops.ExposeDeploy a.Name a.Name a.VirtualHost = some err →
      ∀ ev ∈ ((Deploy ops user appName tarBall description).trace.dropWhile
          (fun ev => !ev.isExposeDeploy)).tail, ev.isGatewayCall = false) := by
  rw [Deploy_of_validated description hv]
  have hR := successLine_ne_release a
  have hU := successLine_ne_upload a
  have hR2 := hR.symm
  have hU2 := hU.symm
  simp only [longRunningStepsSucceed_iff, DeployResult.trace, DeployResult.errChan,
    Option.getD_some]
  rcases hup : ops.UploadFile (tarBallLocation a ops.uidNew) tarBall with _ | e0
  · by_cases hbr : ∃ e, ops.RunCommandBySpec
        (builderPod ops a ops.uidNew (buildDestOf appName ops.uidNew)) = RunResult.value (some e)
    · obtain ⟨e1, hrun⟩ := hbr
      have hB := buildApp_run_fail hup hrun
      simp only [deployTask, hB]
      simp [sends, writes, Event.isExposeDeploy, Event.isGatewayCall, hR, hU, hR2, hU2]
    · have hb : (buildApp ops tarBall a ops.uidNew (buildDestOf appName ops.uidNew)).2 = none :=
        (buildApp_snd_none_iff _ _ _ _ _).2 ⟨hup, by simpa using hbr⟩
      rw [deployTask_long_running hlong hb, buildApp_ok hb]
      simp only [hb, true_and]
      by_cases hd : declaresRelease confFiles
      · rw [createOrUpdateDeploy_release hd]
        have hfst := runReleaseCmd_fst ops a ops.uidNew (slugURLOf appName ops.uidNew)
        rcases hr : runReleaseCmd ops a ops.uidNew (slugURLOf appName ops.uidNew) with
          ⟨evs, _ | e2⟩
        · rw [hr] at hfst
          simp only at hfst
          subst hfst
          dsimp only
          rcases hc : ops.CreateOrUpdateDeploy
              (deploySpecOf ops a confFiles (slugURLOf appName ops.uidNew) description) with _ | e3
          · by_cases hw : a.ProcessType = app.ProcessTypeWeb
            · rcases hx : ops.ExposeDeploy a.Name a.Name a.VirtualHost with _ | e4
              · rw [tail_expose_ok hc hw hx]
                simp [sends, writes, Event.isExposeDeploy, Event.isGatewayCall, hR, hU, hR2, hU2,
                  hd, hw, hx, List.count_cons]
              · rw [tail_expose_fail hc hw hx]
                simp [sends, writes, Event.isExposeDeploy, Event.isGatewayCall, hR, hU, hR2, hU2,
                  hd, hw, hx, List.count_cons]
            · rw [tail_not_web hc hw]
              simp [sends, writes, Event.isExposeDeploy, Event.isGatewayCall, hR, hU, hR2, hU2,
                hd, hw, List.count_cons]
          · rw [tail_create_fail hc]
            simp [sends, writes, Event.isExposeDeploy, Event.isGatewayCall, hR, hU, hR2, hU2,
              hd, List.count_cons]
        · rw [hr] at hfst
          simp only at hfst
          subst hfst
          simp [sends, writes, Event.isExposeDeploy, Event.isGatewayCall, hR, hU, hR2, hU2, hd,
            List.count_cons]
      · rw [createOrUpdateDeploy_no_release hd]
        rcases hc : ops.CreateOrUpdateDeploy
            (deploySpecOf ops a confFiles (slugURLOf appName ops.uidNew) description) with _ | e3
        · by_cases hw : a.ProcessType = app.ProcessTypeWeb
          · rcases hx : ops.ExposeDeploy a.Name a.Name a.VirtualHost with _ | e4
            · rw [tail_expose_ok hc hw hx]
              simp [sends, writes, Event.isExposeDeploy, Event.isGatewayCall, hR, hU, hR2, hU2,
                hd, hw, hx, List.count_cons]
            · rw [tail_expose_fail hc hw hx]
              simp [sends, writes, Event.isExposeDeploy, Event.isGatewayCall, hR, hU, hR2, hU2,
                hd, hw, hx, List.count_cons]
          · rw [tail_not_web hc hw]
            simp [sends, writes, Event.isExposeDeploy, Event.isGatewayCall, hR, hU, hR2, hU2,
              hd, hw, List.count_cons]
        · rw [tail_create_fail hc]
          simp [sends, writes, Event.isExposeDeploy, Event.isGatewayCall, hR, hU, hR2, hU2,
            hd, List.count_cons]
  · have hB : buildApp ops tarBall a ops.uidNew (buildDestOf appName ops.uidNew) = _ :=
      buildApp_upload_fail hup
    simp only [deployTask, hB]
    simp [sends, writes, Event.isExposeDeploy, Event.isGatewayCall, hR, hU, hR2, hU2]

/-- The scenario "sample": web, no release command, every collaborator
succeeds; the success line is the last write and the channel stays empty. When
only the exposure fails, the line is not written. -/
theorem deploy_success_line_witness :
    ((writes (Deploy sampleOps developer "sample" [] "first").trace).getLast? =
        some "The app sample has been successfully deployed" ∧
      (writes (Deploy sampleOps developer "sample" [] "first").trace).count
        "The app sample has been successfully deployed" = 1 ∧
      (Deploy sampleOps developer "sample" [] "first").errChan = []) ∧
    "The app sample has been successfully deployed" ∉
      writes (Deploy exposeFailOps developer "sample" [] "first").trace :=
  ⟨(deploy_success_line sampleOps developer "sample" [] "first" sampleAppOfTeam sampleConf
      ⟨sampleApp, "platform", rfl, rfl, rfl, rfl, rfl⟩ (by decide)).1
      ⟨rfl, fun _ h => (by cases h), fun _ _ h => (by cases h), rfl, fun _ => rfl⟩,
    (deploy_success_line exposeFailOps developer "sample" [] "first" sampleAppOfTeam sampleConf
      ⟨sampleApp, "platform", rfl, rfl, rfl, rfl, rfl⟩ (by decide)).2.1
      (fun h => Option.noConfusion (h.2.2.2.2 rfl))⟩

/-! ## Deploy: validation -/

/-- C6: validation is synchronous. If the application lookup fails, else if the
team lookup fails, else if the caller lacks permission, else if the config
bundle cannot be parsed, `Deploy` returns a nil stream, starts no goroutine, and
has already sent exactly one error on the channel when it returns: the lookup
error unchanged, `ErrPermissionDenied`, or `ErrInvalidTeresaYamlFile` wrapping
the parse error. The calls made are exactly the checks up to the failing one:
no deploy identifier is minted, nothing is uploaded, no pod is run and the
cluster gateway is never called. -/
theorem deploy_validation_failure (ops : DeployOperations) (user : User) (appName : String)
    (tarBall : TarBall) (description : String) :
    (∀ err, ops.Get appName = Except.error err →
      Deploy ops user appName tarBall description =
        { stream := false, sync := [Event.Get appName, Event.send err], background := none }) ∧
    (∀ a0 err, ops.Get appName = Except.ok a0 → ops.TeamName appName = Except.error err →
      Deploy ops user appName tarBall description =
        { stream := false,
          sync := [Event.Get appName, Event.TeamName appName, Event.send err],
          background := none }) ∧
    (∀ a0 teamName, ops.Get appName = Except.ok a0 → ops.TeamName appName = Except.ok teamName →
      ops.HasPermission user appName = false →
      Deploy ops user appName tarBall description =
        { stream := false,
          sync := [Event.Get appName, Event.TeamName appName, Event.HasPermission user appName,
            Event.send GoError.ErrPermissionDenied],
          background := none }) ∧
    (∀ a0 teamName err, ops.Get appName = Except.ok a0 →
      ops.TeamName appName = Except.ok teamName → ops.HasPermission user appName = true →
      ops.getDeployConfigFilesFromTarBall tarBall a0.ProcessType = Except.error err →
      Deploy ops user appName tarBall description =
        { stream := false,
          sync := [Event.Get appName, Event.TeamName appName, Event.HasPermission user appName,
            Event.getDeployConfigFilesFromTarBall a0.ProcessType,
            Event.send (GoError.New GoError.ErrInvalidTeresaYamlFile err)],
          background := none }) ∧
    ((¬ ∃ a confFiles, Validated ops user appName tarBall a confFiles) →
      (Deploy ops user appName tarBall description).stream = false ∧
        (Deploy ops user appName tarBall description).background = none ∧
        (∃ err, sends (Deploy ops user appName tarBall description).sync = [err] ∧
          (Deploy ops user appName tarBall description).errChan = [err]) ∧
        ∀ ev ∈ (Deploy ops user appName tarBall description).trace,
          ev.isPipelineStep = false) := by
  refine ⟨?_, ?_, ?_, ?_, ?_⟩
  · intro err h
    simp [Deploy, h]
  · intro a0 err h1 h2
    simp [Deploy, h1, h2]
  · intro a0 teamName h1 h2 h3
    simp [Deploy, h1, h2, h3]
  · intro a0 teamName err h1 h2 h3 h4
    simp [Deploy, h1, h2, h3, h4]
  · intro hnv
    unfold Deploy
    rcases h1 : ops.Get appName with err | a0
    · simp [sends, DeployResult.errChan, DeployResult.trace, Event.isPipelineStep]
    · rcases h2 : ops.TeamName appName with err | teamName
      · simp [sends, DeployResult.errChan, DeployResult.trace, Event.isPipelineStep]
      · by_cases h3 : ops.HasPermission user appName = false
        · simp [h3, sends, DeployResult.errChan, DeployResult.trace, Event.isPipelineStep]
        · rcases h4 : ops.getDeployConfigFilesFromTarBall tarBall a0.ProcessType with
            err | confFiles
          · simp [h3, h4, sends, DeployResult.errChan, DeployResult.trace, Event.isPipelineStep]
          · exfalso
            apply hnv
            refine ⟨{ a0 with Team := teamName }, confFiles, a0, teamName, h1, h2, rfl, ?_, h4⟩
            simpa using h3

/-- Each of the four rejections on a concrete call: failed lookup, failed team
lookup, missing permission, unparseable archive. -/
theorem deploy_validation_failure_witness :
    Deploy lookupFailOps developer "sample" [] "first" =
        { stream := false,
          sync := [Event.Get "sample", Event.send (GoError.other 404)],
          background := none } ∧
      Deploy teamFailOps developer "sample" [] "first" =
        { stream := false,
          sync := [Event.Get "sample", Event.TeamName "sample", Event.send (GoError.other 500)],
          background := none } ∧
      Deploy deniedOps developer "sample" [] "first" =
        { stream := false,
          sync := [Event.Get "sample", Event.TeamName "sample",
            Event.HasPermission developer "sample", Event.send GoError.ErrPermissionDenied],
          background := none } ∧
      Deploy badArchiveOps developer "sample" [] "first" =
        { stream := false,
          sync := [Event.Get "sample", Event.TeamName "sample",
            Event.HasPermission developer "sample",
            Event.getDeployConfigFilesFromTarBall "web",
            Event.send (GoError.New GoError.ErrInvalidTeresaYamlFile (GoError.other 22))],
          background := none } :=
  ⟨(deploy_validation_failure lookupFailOps developer "sample" [] "first").1 _ rfl,
    (deploy_validation_failure teamFailOps developer "sample" [] "first").2.1 sampleApp _ rfl rfl,
    (deploy_validation_failure deniedOps developer "sample" [] "first").2.2.1 sampleApp
      "platform" rfl rfl rfl,
    (deploy_validation_failure badArchiveOps developer "sample" [] "first").2.2.2.1 sampleApp
      "platform" _ rfl rfl rfl rfl⟩

/-! ## Deploy: the error channel and the closing of the stream -/

theorem neverBlocks_iff (capacity : Nat) (evs : List Event) (n : Nat) :
    neverBlocks capacity n evs = true ↔ (sends evs = [] ∨ n + (sends evs).length ≤ capacity) := by
  induction evs generalizing n with
  | nil => simp [neverBlocks, sends]
  | cons ev evs ih =>
    cases ev
    case send err =>
      simp only [neverBlocks, sends, Bool.and_eq_true, decide_eq_true_eq, ih, List.length_cons]
      constructor
      · rintro ⟨h1, h2 | h2⟩
        · right
          simp [h2]
          omega
        · right
          omega
      · rintro (h | h)
        · exact absurd h (by simp)
        · exact ⟨by omega, Or.inr (by omega)⟩
    all_goals simp only [neverBlocks, sends, ih]

theorem sends_buildApp_fst (ops : DeployOperations) (tarBall : TarBall) (a : App)
    (deployId buildDest : String) : sends (buildApp ops tarBall a deployId buildDest).1 = [] := by
  unfold buildApp
  rcases ops.UploadFile (tarBallLocation a deployId) tarBall with _ | e0
  · have hfst := podRun_fst ops (builderPod ops a deployId buildDest)
    rcases hr : podRun ops (builderPod ops a deployId buildDest) with ⟨evs, _ | e1⟩ <;>
      (rw [hr] at hfst; simp only at hfst; subst hfst; simp [sends])
  · simp [sends]

theorem sends_createOrUpdateDeployTail_le (ops : DeployOperations) (a : App)
    (confFiles : DeployConfigFiles) (slugURL description : String) :
    (sends (createOrUpdateDeployTail ops a confFiles slugURL description)).length ≤ 1 := by
  rcases hc : ops.CreateOrUpdateDeploy (deploySpecOf ops a confFiles slugURL description) with
    _ | e3
  · by_cases hw : a.ProcessType = app.ProcessTypeWeb
    · rcases hx : ops.ExposeDeploy a.Name a.Name a.VirtualHost with _ | e4
      · simp [tail_expose_ok hc hw hx, sends]
      · simp [tail_expose_fail hc hw hx, sends]
    · simp [tail_not_web hc hw, sends]
  · simp [tail_create_fail hc, sends]

theorem sends_createOrUpdateDeploy_le (ops : DeployOperations) (a : App)
    (confFiles : DeployConfigFiles) (slugURL description deployId : String) :
    (sends (createOrUpdateDeploy ops a confFiles slugURL description deployId)).length ≤ 1 := by
  have htail := sends_createOrUpdateDeployTail_le ops a confFiles slugURL description
  by_cases hd : declaresRelease confFiles
  · rw [createOrUpdateDeploy_release hd]
    have hfst := runReleaseCmd_fst ops a deployId slugURL
    rcases hr : runReleaseCmd ops a deployId slugURL with ⟨evs, _ | e2⟩
    · rw [hr] at hfst
      simp only at hfst
      subst hfst
      simpa [sends, sends_append] using htail
    · rw [hr] at hfst
      simp only at hfst
      subst hfst
      simp [sends]
  · rw [createOrUpdateDeploy_no_release hd]
    exact htail

theorem sends_createOrUpdateCronJob_le (ops : DeployOperations) (a : App)
    (confFiles : DeployConfigFiles) (slugURL description : String) :
    (sends (createOrUpdateCronJob ops a confFiles slugURL description)).length ≤ 1 := by
  unfold createOrUpdateCronJob
  rcases ops.CreateOrUpdateCronJob (cronSpecOf ops a confFiles slugURL description) with _ | e <;>
    simp [sends]

theorem sends_deployTask_le (ops : DeployOperations) (appName : String) (tarBall : TarBall)
    (a : App) (confFiles : DeployConfigFiles) (description deployId : String) :
    (sends (deployTask ops appName tarBall a confFiles description deployId)).length ≤ 1 := by
  have hfst := sends_buildApp_fst ops tarBall a deployId (buildDestOf appName deployId)
  unfold deployTask
  rcases hb : buildApp ops tarBall a deployId (buildDestOf appName deployId) with ⟨evs, _ | e⟩
  · rw [hb] at hfst
    simp only at hfst
    by_cases hcron : a.ProcessType = app.ProcessTypeCron
    · simpa [hb, hcron, sends_append, hfst, sends] using
        sends_createOrUpdateCronJob_le ops a confFiles (slugURLOf appName deployId) description
    · simpa [hb, hcron, sends_append, hfst, sends] using
        sends_createOrUpdateDeploy_le ops a confFiles (slugURLOf appName deployId) description
          deployId
  · rw [hb] at hfst
    simp only at hfst
    simp [hb, sends_append, hfst, sends]

theorem deployTask_getLast (ops : DeployOperations) (appName : String) (tarBall : TarBall)
    (a : App) (confFiles : DeployConfigFiles) (description deployId : String) :
    (deployTask ops appName tarBall a confFiles description deployId).getLast? =
      some Event.Close := by
  unfold deployTask
  simp

theorem sends_trace_le (ops : DeployOperations) (user : User) (appName : String)
    (tarBall : TarBall) (description : String) :
    (sends (Deploy ops user appName tarBall description).trace).length ≤ 1 := by
  unfold Deploy
  rcases h1 : ops.Get appName with err | a0
  · simp [sends, DeployResult.trace]
  · rcases h2 : ops.TeamName appName with err | teamName
    · simp [sends, DeployResult.trace]
    · by_cases h3 : ops.HasPermission user appName = false
      · simp [h3, sends, DeployResult.trace]
      · rcases h4 : ops.getDeployConfigFilesFromTarBall tarBall a0.ProcessType with
          err | confFiles
        · simp [h3, h4, sends, DeployResult.trace]
        · simpa [h3, h4, sends, DeployResult.trace, sends_append] using
            sends_deployTask_le ops appName tarBall { a0 with Team := teamName } confFiles
              description ops.uidNew

/-- C7: for every call of `Deploy` and every combination of collaborator
outcomes, the error channel receives at most one value over the whole call, so
no send on the channel of capacity one ever finds it full; and whenever the
goroutine is started, its last effect is the closing of the output stream. -/
theorem deploy_errChan_at_most_one_and_stream_closed (ops : DeployOperations) (user : User)
    (appName : String) (tarBall : TarBall) (description : String) :
    (Deploy ops user appName tarBall description).errChan.length ≤ 1 ∧
    neverBlocks 1 0 (Deploy ops user appName tarBall description).trace = true ∧
    ∀ task, (Deploy ops user appName tarBall description).background = some task →
      task.getLast? = some Event.Close := by
  have hle := sends_trace_le ops user appName tarBall description
  refine ⟨hle, ?_, ?_⟩
  · rw [neverBlocks_iff]
    right
    omega
  · intro task htask
    unfold Deploy at htask
    rcases h1 : ops.Get appName with err | a0
    · simp [h1] at htask
    · rcases h2 : ops.TeamName appName with err | teamName
      · simp [h1, h2] at htask
      · by_cases h3 : ops.HasPermission user appName = false
        · simp [h1, h2, h3] at htask
        · rcases h4 : ops.getDeployConfigFilesFromTarBall tarBall a0.ProcessType with
            err | confFiles
          · simp [h1, h2, h3, h4] at htask
          · simp [h1, h2, h3, h4] at htask
            rw [← htask]
            exact deployTask_getLast _ _ _ _ _ _ _

/-- The failed release of "sample": one value on the channel, and the stream is
closed at the end of the goroutine. -/
theorem deploy_errChan_at_most_one_and_stream_closed_witness :
    (Deploy releaseFailOps developer "sample" [] "first").errChan.length ≤ 1 ∧
    neverBlocks 1 0 (Deploy releaseFailOps developer "sample" [] "first").trace = true ∧
    (deployTask releaseFailOps "sample" [] sampleAppOfTeam releaseConf "first" "d1").getLast? =
      some Event.Close :=
  have h := deploy_errChan_at_most_one_and_stream_closed releaseFailOps developer "sample" []
    "first"
  ⟨h.1, h.2.1, h.2.2 _ rfl⟩

/-! ## Deploy: upload failure -/

/-- C8, as the code behaves: when validation passes and the upload of the
archive to `deploys/<app>/<deployId>/in/app.tar.gz` fails, the goroutine writes
the line "The Deploy failed to upload the tarBall to slug storage", sends the
upload error itself (unchanged) on the error channel, closes the stream and
does nothing else: no pod is run and the cluster gateway is never called. -/
theorem deploy_upload_failure_sends_upload_error (ops : DeployOperations) (user : User)
    (appName : String) (tarBall : TarBall) (description : String) (a : App)
    (confFiles : DeployConfigFiles) (err : GoError)
    (hv : Validated ops user appName tarBall a confFiles)
    (hup : ops.UploadFile ("deploys/" ++ a.Name ++ "/" ++ ops.uidNew ++ "/in/app.tar.gz") tarBall =
      some err) :
    (Deploy ops user appName tarBall description).background =
      some [Event.Seek,
        Event.UploadFile ("deploys/" ++ a.Name ++ "/" ++ ops.uidNew ++ "/in/app.tar.gz"),
        Event.Fprintln "The Deploy failed to upload the tarBall to slug storage",
        Event.send err, Event.logError err ("Building app " ++ appName), Event.Close] ∧
    (Deploy ops user appName tarBall description).errChan = [err] ∧
    ∀ ev ∈ (Deploy ops user appName tarBall description).trace,
      ev.isPodRun = false ∧ ev.isGatewayCall = false := by
  rw [Deploy_of_validated description hv]
  have hB : buildApp ops tarBall a ops.uidNew (buildDestOf appName ops.uidNew) = _ :=
    buildApp_upload_fail hup
  simp only [DeployResult.errChan, DeployResult.trace, Option.getD_some, deployTask, hB]
  simp [sends, tarBallLocation, Event.isPodRun, Event.isGatewayCall]

/-- The upload of "sample" fails with a storage error: that error is what the
channel receives. -/
theorem deploy_upload_failure_sends_upload_error_witness :
    (Deploy uploadFailOps developer "sample" [] "first").background =
      some [Event.Seek, Event.UploadFile "deploys/sample/d1/in/app.tar.gz",
        Event.Fprintln "The Deploy failed to upload the tarBall to slug storage",
        Event.send (GoError.other 3),
        Event.logError (GoError.other 3) "Building app sample", Event.Close] ∧
    (Deploy uploadFailOps developer "sample" [] "first").errChan = [GoError.other 3] ∧
    ∀ ev ∈ (Deploy uploadFailOps developer "sample" [] "first").trace,
      ev.isPodRun = false ∧ ev.isGatewayCall = false :=
  deploy_upload_failure_sends_upload_error uploadFailOps developer "sample" [] "first"
    sampleAppOfTeam sampleConf (GoError.other 3)
    ⟨sampleApp, "platform", rfl, rfl, rfl, rfl, rfl⟩ rfl

/-- C8 as stated fails: the call passes validation and the upload to
`deploys/sample/d1/in/app.tar.gz` fails, yet the error channel receives the
storage error and never `ErrBuildFail`. -/
theorem deploy_upload_failure_not_ErrBuildFail :
    Validated uploadFailOps developer "sample" [] sampleAppOfTeam sampleConf ∧
    uploadFailOps.UploadFile "deploys/sample/d1/in/app.tar.gz" [] = some (GoError.other 3) ∧
    (Deploy uploadFailOps developer "sample" [] "first").errChan = [GoError.other 3] ∧
    GoError.ErrBuildFail ∉ (Deploy uploadFailOps developer "sample" [] "first").errChan :=
  ⟨⟨sampleApp, "platform", rfl, rfl, rfl, rfl, rfl⟩, rfl, by decide, by decide⟩

/-! ## Rollback -/

/-- C9: `Rollback` calls `CheckPermAndGet(user, appName)`, then
`DeployRollbackToRevision(appName, appName, revision)`, then
`SaveApp(app, user.Email)`, each once and each only if the previous one
succeeded. A failed check is returned unchanged and the gateway is not called;
a failed gateway rollback is returned as an internal error and `SaveApp` is not
called; a failed `SaveApp` after a successful gateway rollback is returned as an
internal error wrapping the persistence error. `Rollback` returns nil exactly
when all three succeed. -/
theorem rollback_order_and_errors (ops : DeployOperations) (user : User)
    (appName revision : String) :
    (∀ err, ops.CheckPermAndGet user appName = Except.error err →
      Rollback ops user appName revision = ([Event.CheckPermAndGet user appName], some err)) ∧
    (∀ a err, ops.CheckPermAndGet user appName = Except.ok a →
      ops.DeployRollbackToRevision appName appName revision = some err →
      Rollback ops user appName revision =
        ([Event.CheckPermAndGet user appName,
          Event.DeployRollbackToRevision appName appName revision],
          some (GoError.NewInternalServerError err))) ∧
    (∀ a err, ops.CheckPermAndGet user appName = Except.ok a →
      ops.DeployRollbackToRevision appName appName revision = none →
      ops.SaveApp a user.Email = some err →
      Rollback ops user appName revision =
        ([Event.CheckPermAndGet user appName,
          Event.DeployRollbackToRevision appName appName revision,
          Event.SaveApp a user.Email],
          some (GoError.NewInternalServerError err))) ∧
    (∀ a, ops.CheckPermAndGet user appName = Except.ok a →
      ops.DeployRollbackToRevision appName appName revision = none →
      ops.SaveApp a user.Email = none →
      Rollback ops user appName revision =
        ([Event.CheckPermAndGet user appName,
          Event.DeployRollbackToRevision appName appName revision,
          Event.SaveApp a user.Email], none)) ∧
    ((Rollback ops user appName revision).2 = none ↔
      ∃ a, ops.CheckPermAndGet user appName = Except.ok a ∧
        ops.DeployRollbackToRevision appName appName revision = none ∧
        ops.SaveApp a user.Email = none) := by
  refine ⟨?_, ?_, ?_, ?_, ?_⟩
  · intro err h
    simp [Rollback, h]
  · intro a err h1 h2
    simp [Rollback, h1, h2]
  · intro a err h1 h2 h3
    simp [Rollback, h1, h2, h3]
  · intro a h1 h2 h3
    simp [Rollback, h1, h2, h3]
  · unfold Rollback
    rcases h1 : ops.CheckPermAndGet user appName with err | a
    · simp
    · rcases h2 : ops.DeployRollbackToRevision appName appName revision with _ | err
      · rcases h3 : ops.SaveApp a user.Email with _ | err
        · simp [h3]
        · simp [h3]
      · simp

/-- A rollback of "sample" that succeeds, and one whose cluster rollback
succeeds while the record cannot be saved. -/
theorem rollback_order_and_errors_witness :
    Rollback sampleOps developer "sample" "3" =
        ([Event.CheckPermAndGet developer "sample",
          Event.DeployRollbackToRevision "sample" "sample" "3",
          Event.SaveApp sampleAppOfTeam "dev@example.com"], none) ∧
      Rollback saveFailOps developer "sample" "3" =
        ([Event.CheckPermAndGet developer "sample",
          Event.DeployRollbackToRevision "sample" "sample" "3",
          Event.SaveApp sampleAppOfTeam "dev@example.com"],
          some (GoError.NewInternalServerError (GoError.other 7))) :=
  ⟨(rollback_order_and_errors sampleOps developer "sample" "3").2.2.2.1 sampleAppOfTeam
      rfl rfl rfl,
    (rollback_order_and_errors saveFailOps developer "sample" "3").2.2.1 sampleAppOfTeam
      (GoError.other 7) rfl rfl rfl⟩

/-! ## PodRun: the exit-status channel -/

namespace k8s

theorem exitCodes_append (xs ys : List Event) :
    exitCodes (xs ++ ys) = exitCodes xs ++ exitCodes ys := by
  induction xs with
  | nil => rfl
  | cons x xs ih => cases x <;> simp [exitCodes, ih]

theorem mem_gets {i j : Nat} {ev : Event} (h : ev ∈ gets i j) : ∃ n, ev = Event.Get n := by
  simp only [gets, List.mem_map] at h
  obtain ⟨k, _, rfl⟩ := h
  exact ⟨_, rfl⟩

theorem exitCodes_of_gets (l : List Event) (h : ∀ ev ∈ l, ∃ n, ev = Event.Get n) :
    exitCodes l = [] := by
  induction l with
  | nil => rfl
  | cons x xs ih =>
    obtain ⟨n, rfl⟩ := h _ (List.mem_cons_self _ _)
    simp only [exitCodes]
    exact ih (fun ev hev => h ev (List.mem_cons_of_mem _ hev))

theorem exitCodes_gets (i j : Nat) : exitCodes (gets i j) = [] :=
  exitCodes_of_gets _ (fun _ h => mem_gets h)

theorem killAfterExitCode_of_gets (seen : Bool) (l rest : List Event)
    (h : ∀ ev ∈ l, ∃ n, ev = Event.Get n) :
    killAfterExitCode seen (l ++ rest) = killAfterExitCode seen rest := by
  induction l with
  | nil => rfl
  | cons x xs ih =>
    obtain ⟨n, rfl⟩ := h _ (List.mem_cons_self _ _)
    simp only [List.cons_append, killAfterExitCode]
    exact ih (fun ev hev => h ev (List.mem_cons_of_mem _ hev))

theorem killAfterExitCode_gets (seen : Bool) (i j : Nat) (rest : List Event) :
    killAfterExitCode seen (gets i j ++ rest) = killAfterExitCode seen rest :=
  killAfterExitCode_of_gets seen _ rest (fun _ h => mem_gets h)

theorem isClosing_gets {i j : Nat} {ev : Event} (h : ev ∈ gets i j) : ev.isClosing = false := by
  obtain ⟨n, rfl⟩ := mem_gets h
  rfl

theorem podRunBody_not_closing (c : Cluster) (podSpec : PodSpec) :
    ∀ ev ∈ podRunBody c podSpec, ev.isClosing = false := by
  intro ev hev
  unfold podRunBody at hev
  rcases hs : waitPodStart c 0 with ⟨_ | e, i⟩
  · rcases hl : c.PodLogs with e | lines
    · simp only [hs, hl, List.mem_append, List.mem_singleton] at hev
      rcases hev with h | rfl
      · exact isClosing_gets h
      · rfl
    · rcases he : waitPodEnd c i with ⟨_ | e, j⟩
      · rcases hx : podExitCode c j with _ | code
        · simp only [hs, hl, he, hx, List.mem_append, List.mem_cons, List.mem_singleton,
            List.not_mem_nil, or_false] at hev
          rcases hev with ((h | rfl | rfl) | h) | rfl | rfl
          · exact isClosing_gets h
          · rfl
          · rfl
          · exact isClosing_gets h
          · rfl
          · rfl
        · simp only [hs, hl, he, hx, List.mem_append, List.mem_cons, List.mem_singleton,
            List.not_mem_nil, or_false] at hev
          rcases hev with ((h | rfl | rfl) | h) | rfl | rfl | rfl
          · exact isClosing_gets h
          · rfl
          · rfl
          · exact isClosing_gets h
          · rfl
          · rfl
          · rfl
      · simp only [hs, hl, he, List.mem_append, List.mem_cons, List.mem_singleton,
          List.not_mem_nil, or_false] at hev
        rcases hev with (h | rfl | rfl) | h
        · exact isClosing_gets h
        · rfl
        · rfl
        · exact isClosing_gets h
  · simp only [hs] at hev
    exact isClosing_gets hev

theorem exitCodes_podRunTask {c : Cluster} (podSpec : PodSpec) (h : runsToEnd c) :
    exitCodes (podRunTask c podSpec) =
      (podExitCode c (waitPodEnd c (waitPodStart c 0).2).2).toList := by
  obtain ⟨h1, ⟨lines, h2⟩, h3⟩ := h
  unfold podRunTask podRunBody
  rcases hs : waitPodStart c 0 with ⟨_ | e, i⟩
  · rw [hs] at h3
    rcases he : waitPodEnd c i with ⟨_ | e, j⟩
    · rcases hx : podExitCode c j with _ | code <;>
        simp [h2, he, hx, exitCodes_append, exitCodes_gets, exitCodes]
    · simp [he] at h3
  · simp [hs] at h1

theorem exitCodes_podRunTask_of_failure {c : Cluster} (podSpec : PodSpec) (h : ¬ runsToEnd c) :
    exitCodes (podRunTask c podSpec) = [] := by
  unfold podRunTask podRunBody
  rcases hs : waitPodStart c 0 with ⟨_ | e, i⟩
  · rcases hl : c.PodLogs with e | lines
    · simp [exitCodes_append, exitCodes_gets, exitCodes]
    · rcases he : waitPodEnd c i with ⟨_ | e, j⟩
      · exact absurd ⟨by simp [hs], ⟨lines, hl⟩, by simp [hs, he]⟩ h
      · simp [he, exitCodes_append, exitCodes_gets, exitCodes]
  · simp [exitCodes_append, exitCodes_gets, exitCodes]

theorem podRunTask_closings_last (c : Cluster) (podSpec : PodSpec) :
    ∃ body, podRunTask c podSpec = body ++ [Event.closePipe, Event.closeExitCodeChan] ∧
      ∀ ev ∈ body, ev.isClosing = false :=
  ⟨podRunBody c podSpec, rfl, podRunBody_not_closing c podSpec⟩

theorem podRunTask_kill_after_exit_code (c : Cluster) (podSpec : PodSpec) :
    killAfterExitCode false (podRunTask c podSpec) = true := by
  unfold podRunTask podRunBody
  rcases hs : waitPodStart c 0 with ⟨_ | e, i⟩
  · rcases hl : c.PodLogs with e | lines
    · simp [List.append_assoc, killAfterExitCode_gets, killAfterExitCode]
    · rcases he : waitPodEnd c i with ⟨_ | e, j⟩
      · rcases hx : podExitCode c j with _ | code <;>
          simp [he, hx, List.append_assoc, killAfterExitCode_gets, killAfterExitCode]
      · simp [he, List.append_assoc, killAfterExitCode_gets, killAfterExitCode]
  · simp [List.append_assoc, killAfterExitCode_gets, killAfterExitCode]

/-- C10, the code at the failing input: `PodRun` submits the pod, start-wait
sees it running at its first poll, the logs attach, end-wait sees it in phase
Failed at its second poll, and the status read again by `podExitCode` holds a
container that is not terminated. Start-wait, log attachment and end-wait all
succeed, `podExitCode` dereferences the nil `State.Terminated` and panics, and
the exit-status channel delivers no value; the deferred calls close the pipe
and the channel, and the deletion of the pod is never started. -/
theorem podRun_panics_on_unterminated_status :
    (PodRun waitingCluster buildPod).err = none ∧
    runsToEnd waitingCluster ∧
    waitPodStart waitingCluster 0 = (none, 1) ∧
    waitPodEnd waitingCluster 1 = (none, 3) ∧
    waitingCluster.Get 3 =
      Except.ok { Phase := PodPhase.PodFailed, ContainerStatuses := [notTerminated] } ∧
    podExitCode waitingCluster 3 = none ∧
    (PodRun waitingCluster buildPod).task =
      some [Event.Get 0, Event.PodLogs "sample" "build-d1",
        Event.Copy ["-----> Build succeeded"], Event.Get 1, Event.Get 2, Event.Get 3,
        Event.panic, Event.closePipe, Event.closeExitCodeChan] ∧
    exitCodes (podRunTask waitingCluster buildPod) = [] := by
  refine ⟨rfl, ⟨rfl, ⟨_, rfl⟩, rfl⟩, rfl, rfl, rfl, rfl, ?_, ?_⟩ <;> decide

end k8s

/-! ## PodRun: the exit code -/

namespace k8s

theorem firstNonZeroExitCode_eq_zero_iff (l : List ContainerStatus) :
    firstNonZeroExitCode l = some 0 ↔
      ∀ s ∈ l, s.State.Terminated = some { ExitCode := 0 } := by
  induction l with
  | nil => simp [firstNonZeroExitCode]
  | cons x xs ih =>
    unfold firstNonZeroExitCode
    rcases x with ⟨⟨_ | ⟨⟨code⟩⟩⟩⟩
    · simp
    · by_cases hx : code = 0
      · simp [hx, ih]
      · simp [hx]

theorem firstNonZeroExitCode_first (pre : List ContainerStatus) (s : ContainerStatus)
    (post : List ContainerStatus) (code : Int)
    (hpre : ∀ x ∈ pre, x.State.Terminated = some { ExitCode := 0 })
    (hs : s.State.Terminated = some { ExitCode := code }) (hne : code ≠ 0) :
    firstNonZeroExitCode (pre ++ s :: post) = some code := by
  induction pre with
  | nil => simp [firstNonZeroExitCode, hs, hne]
  | cons x xs ih =>
    have hx := hpre x (List.mem_cons_self _ _)
    simp only [List.cons_append, firstNonZeroExitCode, hx, ne_eq, not_true_eq_false, if_false]
    exact ih (fun y hy => hpre y (List.mem_cons_of_mem _ hy))

theorem PollImmediate_success {condition : Nat → Bool × Option GoError} {ticks i j : Nat}
    (h : PollImmediate condition ticks i = (none, j)) :
    i + 1 ≤ j ∧ condition (j - 1) = (true, none) := by
  induction ticks generalizing i with
  | zero =>
    unfold PollImmediate at h
    rcases hc : condition i with ⟨b, _ | e⟩
    · cases b
      · simp [hc] at h
      · simp [hc] at h
        subst h
        simpa using hc
    · simp [hc] at h
  | succ t ih =>
    unfold PollImmediate at h
    rcases hc : condition i with ⟨b, _ | e⟩
    · cases b
      · simp only [hc] at h
        obtain ⟨h1, h2⟩ := ih h
        exact ⟨by omega, h2⟩
      · simp [hc] at h
        subst h
        simpa using hc
    · simp [hc] at h

/-- C11, as the code behaves by design: when a pod run reaches its end, end-wait
has seen the pod in phase Succeeded or Failed, and whenever `podExitCode`
returns, its value is the single exit status emitted. That value comes from the
container statuses read again after end-wait, whatever the phase: `1` when the
pod cannot be read, the exit code of the first container status whose
terminated exit code is non-zero (the statuses before it being terminated with
`0`), and `0` exactly when every container status is terminated with exit code
`0`. -/
theorem podRun_exit_code_from_container_statuses (c : Cluster) (podSpec : PodSpec)
    (hrun : runsToEnd c) :
    (∃ p, c.Get ((waitPodEnd c (waitPodStart c 0).2).2 - 1) = Except.ok p ∧
      (p.Phase = PodPhase.PodSucceeded ∨ p.Phase = PodPhase.PodFailed)) ∧
    (∀ code, podExitCode c (waitPodEnd c (waitPodStart c 0).2).2 = some code →
      exitCodes (podRunTask c podSpec) = [code]) ∧
    ∀ j, (∀ err, c.Get j = Except.error err → podExitCode c j = some 1) ∧
      ∀ p, c.Get j = Except.ok p →
        (∀ pre s post code, p.ContainerStatuses = pre ++ s :: post →
          (∀ x ∈ pre, x.State.Terminated = some { ExitCode := 0 }) →
          s.State.Terminated = some { ExitCode := code } → code ≠ 0 →
          podExitCode c j = some code) ∧
        (podExitCode c j = some 0 ↔
          ∀ s ∈ p.ContainerStatuses, s.State.Terminated = some { ExitCode := 0 }) := by
  refine ⟨?_, ?_, ?_⟩
  · obtain ⟨_, _, h3⟩ := hrun
    rcases he : waitPodEnd c (waitPodStart c 0).2 with ⟨r, j⟩
    rw [he] at h3
    simp only at h3
    subst h3
    have hcond := (PollImmediate_success he).2
    unfold waitPodEndCondition at hcond
    rcases hg : c.Get (j - 1) with err | p
    · simp [hg] at hcond
    · refine ⟨p, rfl, ?_⟩
      simpa [hg] using hcond
  · intro code hcode
    rw [exitCodes_podRunTask podSpec hrun, hcode]
    rfl
  · intro j
    refine ⟨fun err h => by simp [podExitCode, h], fun p hp => ⟨?_, ?_⟩⟩
    · intro pre s post code hl hpre hs hne
      simp only [podExitCode, hp, hl]
      exact firstNonZeroExitCode_first pre s post code hpre hs hne
    · simp only [podExitCode, hp]
      exact firstNonZeroExitCode_eq_zero_iff _

/-- A pod whose second container exits with code `3` after a first container
that exits with `0`: the status emitted is `3`. -/
theorem podRun_exit_code_from_container_statuses_witness :
    exitCodes (podRunTask crashedCluster buildPod) = [3] :=
  (podRun_exit_code_from_container_statuses crashedCluster buildPod
    ⟨rfl, ⟨_, rfl⟩, rfl⟩).2.1 3 rfl

/-- C11 as stated fails: a pod that end-wait finds in phase Failed with no
container status yields the exit status `0`, and a pod that end-wait finds in
phase Succeeded and that cannot be read afterwards yields `1`. -/
theorem podRun_exit_code_ignores_phase :
    (evictedCluster.Get 1 =
        Except.ok { Phase := PodPhase.PodFailed, ContainerStatuses := [] } ∧
      waitPodEnd evictedCluster 1 = (none, 2) ∧
      exitCodes (podRunTask evictedCluster buildPod) = [0]) ∧
    (unreadableCluster.Get 1 =
        Except.ok { Phase := PodPhase.PodSucceeded, ContainerStatuses := [terminatedWith 0] } ∧
      waitPodEnd unreadableCluster 1 = (none, 2) ∧
      exitCodes (podRunTask unreadableCluster buildPod) = [1]) := by
  refine ⟨⟨rfl, rfl, ?_⟩, ⟨rfl, rfl, ?_⟩⟩ <;> decide

end k8s

/-! ## waitPodStart: the first decisive observation -/

namespace k8s

theorem PollImmediate_skip (condition : Nat → Bool × Option GoError) (k ticks i : Nat)
    (h : ∀ m, m < k → condition (i + m) = (false, none)) :
    PollImmediate condition (ticks + k) i = PollImmediate condition ticks (i + k) := by
  induction k generalizing i with
  | zero => rfl
  | succ k ih =>
    have h0 : condition i = (false, none) := by simpa using h 0 (Nat.succ_pos k)
    have hstep : PollImmediate condition (ticks + k + 1) i =
        PollImmediate condition (ticks + k) (i + 1) := by
      rw [PollImmediate]
      simp only [h0]
    have hrest : ∀ m, m < k → condition (i + 1 + m) = (false, none) := by
      intro m hm
      have := h (m + 1) (by omega)
      rwa [show i + (m + 1) = i + 1 + m by omega] at this
    rw [show ticks + (k + 1) = ticks + k + 1 by omega, hstep, ih (i + 1) hrest]
    rw [show i + 1 + k = i + (k + 1) by omega]

theorem PollImmediate_error (condition : Nat → Bool × Option GoError) (ticks i : Nat) (b : Bool)
    (e : GoError) (h : condition i = (b, some e)) :
    PollImmediate condition ticks i = (some e, i + 1) := by
  cases ticks <;> (rw [PollImmediate]; simp only [h])

theorem PollImmediate_done (condition : Nat → Bool × Option GoError) (ticks i : Nat)
    (h : condition i = (true, none)) :
    PollImmediate condition ticks i = (none, i + 1) := by
  cases ticks <;> (rw [PollImmediate]; simp only [h])

theorem PollImmediate_timeout (condition : Nat → Bool × Option GoError) (ticks i : Nat)
    (h : ∀ m, m ≤ ticks → condition (i + m) = (false, none)) :
    PollImmediate condition ticks i = (some GoError.ErrWaitTimeout, i + ticks + 1) := by
  have hskip := PollImmediate_skip condition ticks 0 i (fun m hm => h m (Nat.le_of_lt hm))
  rw [Nat.zero_add] at hskip
  rw [hskip, PollImmediate]
  simp only [h ticks (Nat.le_refl _)]

theorem waitPodStartCondition_pending (c : Cluster) (n : Nat) :
    waitPodStartCondition c n = (false, none) ↔ isDecisive (c.Get n) = false := by
  unfold waitPodStartCondition isDecisive
  rcases c.Get n with err | p
  · simp
  · rcases p with ⟨phase, statuses⟩
    cases phase <;> simp

theorem first_decisive_or_none (c : Cluster) (ticks i : Nat) :
    (∃ k, k ≤ ticks ∧ (∀ m, m < k → isDecisive (c.Get (i + m)) = false) ∧
        isDecisive (c.Get (i + k)) = true) ∨
      ∀ m, m ≤ ticks → isDecisive (c.Get (i + m)) = false := by
  induction ticks with
  | zero =>
    by_cases h : isDecisive (c.Get i) = true
    · exact Or.inl ⟨0, Nat.le_refl _, fun m hm => absurd hm (Nat.not_lt_zero m), h⟩
    · right
      intro m hm
      have : m = 0 := by omega
      subst this
      simpa using h
  | succ t ih =>
    rcases ih with ⟨k, hk, hbefore, hat⟩ | hall
    · exact Or.inl ⟨k, by omega, hbefore, hat⟩
    · by_cases h : isDecisive (c.Get (i + (t + 1))) = true
      · exact Or.inl ⟨t + 1, Nat.le_refl _, fun m hm => hall m (by omega), h⟩
      · right
        intro m hm
        by_cases hm2 : m ≤ t
        · exact hall m hm2
        · have : m = t + 1 := by omega
          subst this
          simpa using h

theorem waitPodStart_at_first_decisive (c : Cluster) (i k : Nat) (hk : k ≤ c.startTicks)
    (hbefore : ∀ m, m < k → isDecisive (c.Get (i + m)) = false) :
    waitPodStart c i =
      PollImmediate (waitPodStartCondition c) (c.startTicks - k) (i + k) := by
  unfold waitPodStart
  have h := PollImmediate_skip (waitPodStartCondition c) k (c.startTicks - k) i
    (fun m hm => (waitPodStartCondition_pending c (i + m)).2 (hbefore m hm))
  rwa [Nat.sub_add_cancel hk] at h

/-- C12: for every sequence of answers of the cluster to the polls of
start-wait (the polls numbered `i`, `i + 1`, ...), the outcome is fixed by the
first decisive answer among the polls the bound allows: success when its phase
is Running or Succeeded; `ErrPodRunFailed` when its phase is Failed; the API
error when it is an error; in each case no later poll is made. While the phase
is anything else the wait goes on, and it ends with `ErrWaitTimeout`, after the
last poll the bound allows, when no answer was decisive. One of the two always
holds. -/
theorem waitPodStart_first_decisive_observation (c : Cluster) (i : Nat) :
    (∀ k, k ≤ c.startTicks → (∀ m, m < k → isDecisive (c.Get (i + m)) = false) →
      (∀ p, c.Get (i + k) = Except.ok p →
        (p.Phase = PodPhase.PodRunning ∨ p.Phase = PodPhase.PodSucceeded) →
        waitPodStart c i = (none, i + k + 1)) ∧
      (∀ p, c.Get (i + k) = Except.ok p → p.Phase = PodPhase.PodFailed →
        waitPodStart c i = (some GoError.ErrPodRunFailed, i + k + 1)) ∧
      (∀ err, c.Get (i + k) = Except.error err →
        waitPodStart c i = (some err, i + k + 1))) ∧
    ((∀ m, m ≤ c.startTicks → isDecisive (c.Get (i + m)) = false) →
      waitPodStart c i = (some GoError.ErrWaitTimeout, i + c.startTicks + 1)) ∧
    ((∃ k, k ≤ c.startTicks ∧ (∀ m, m < k → isDecisive (c.Get (i + m)) = false) ∧
        isDecisive (c.Get (i + k)) = true ∧ (waitPodStart c i).2 = i + k + 1) ∨
      ((∀ m, m ≤ c.startTicks → isDecisive (c.Get (i + m)) = false) ∧
        waitPodStart c i = (some GoError.ErrWaitTimeout, i + c.startTicks + 1))) := by
  have hdecisive : ∀ k, k ≤ c.startTicks →
      (∀ m, m < k → isDecisive (c.Get (i + m)) = false) →
      (∀ p, c.Get (i + k) = Except.ok p →
        (p.Phase = PodPhase.PodRunning ∨ p.Phase = PodPhase.PodSucceeded) →
        waitPodStart c i = (none, i + k + 1)) ∧
      (∀ p, c.Get (i + k) = Except.ok p → p.Phase = PodPhase.PodFailed →
        waitPodStart c i = (some GoError.ErrPodRunFailed, i + k + 1)) ∧
      (∀ err, c.Get (i + k) = Except.error err →
        waitPodStart c i = (some err, i + k + 1)) := by
    intro k hk hbefore
    rw [waitPodStart_at_first_decisive c i k hk hbefore]
    refine ⟨?_, ?_, ?_⟩
    · intro p hp hphase
      apply PollImmediate_done
      unfold waitPodStartCondition
      rcases hphase with h | h <;> simp [hp, h]
    · intro p hp hphase
      apply PollImmediate_error _ _ _ true
      unfold waitPodStartCondition
      simp [hp, hphase]
    · intro err herr
      apply PollImmediate_error _ _ _ false
      unfold waitPodStartCondition
      simp [herr]
  have htimeout : (∀ m, m ≤ c.startTicks → isDecisive (c.Get (i + m)) = false) →
      waitPodStart c i = (some GoError.ErrWaitTimeout, i + c.startTicks + 1) := by
    intro hall
    unfold waitPodStart
    exact PollImmediate_timeout _ _ _
      (fun m hm => (waitPodStartCondition_pending c (i + m)).2 (hall m hm))
  refine ⟨hdecisive, htimeout, ?_⟩
  rcases first_decisive_or_none c c.startTicks i with ⟨k, hk, hbefore, hat⟩ | hall
  · left
    refine ⟨k, hk, hbefore, hat, ?_⟩
    obtain ⟨h1, h2, h3⟩ := hdecisive k hk hbefore
    rcases hg : c.Get (i + k) with err | p
    · rw [h3 err hg]
    · rcases p with ⟨phase, statuses⟩
      cases phase
      · simp [isDecisive, hg] at hat
      · rw [h1 _ hg (Or.inl rfl)]
      · rw [h1 _ hg (Or.inr rfl)]
      · rw [h2 _ hg rfl]
      · simp [isDecisive, hg] at hat
  · exact Or.inr ⟨hall, htimeout hall⟩

/-- The four outcomes on concrete pods: running at the second poll, failed at
the first poll, an API error at the first poll, and still pending when the
bound of two ticks has elapsed. -/
theorem waitPodStart_first_decisive_observation_witness :
    waitPodStart succeedingCluster 0 = (none, 2) ∧
      waitPodStart failedEarlyCluster 0 = (some GoError.ErrPodRunFailed, 1) ∧
      waitPodStart unreachableCluster 0 = (some (GoError.other 503), 1) ∧
      waitPodStart pendingCluster 0 = (some GoError.ErrWaitTimeout, 3) :=
  ⟨((waitPodStart_first_decisive_observation succeedingCluster 0).1 1 (by decide)
      (fun m hm => by
        have : m = 0 := by omega
        subst this
        rfl)).1 _ rfl (Or.inl rfl),
    ((waitPodStart_first_decisive_observation failedEarlyCluster 0).1 0 (by decide)
      (fun m hm => absurd hm (Nat.not_lt_zero m))).2.1 _ rfl rfl,
    ((waitPodStart_first_decisive_observation unreachableCluster 0).1 0 (by decide)
      (fun m hm => absurd hm (Nat.not_lt_zero m))).2.2 _ rfl,
    (waitPodStart_first_decisive_observation pendingCluster 0).2.1 (fun _ _ => rfl)⟩

end k8s

/-! ## waitPodEnd: the first decisive observation -/

namespace k8s

theorem waitPodEndCondition_pending (c : Cluster) (n : Nat) :
    waitPodEndCondition c n = (false, none) ↔ isEndDecisive (c.Get n) = false := by
  unfold waitPodEndCondition isEndDecisive
  rcases c.Get n with err | p
  · simp
  · rcases p with ⟨phase, statuses⟩
    cases phase <;> simp

theorem first_true_or_none (f : Nat → Bool) (ticks : Nat) :
    (∃ k, k ≤ ticks ∧ (∀ m, m < k → f m = false) ∧ f k = true) ∨
      ∀ m, m ≤ ticks → f m = false := by
  induction ticks with
  | zero =>
    by_cases h : f 0 = true
    · exact Or.inl ⟨0, Nat.le_refl _, fun m hm => absurd hm (Nat.not_lt_zero m), h⟩
    · right
      intro m hm
      have : m = 0 := by omega
      subst this
      simpa using h
  | succ t ih =>
    rcases ih with ⟨k, hk, hbefore, hat⟩ | hall
    · exact Or.inl ⟨k, by omega, hbefore, hat⟩
    · by_cases h : f (t + 1) = true
      · exact Or.inl ⟨t + 1, Nat.le_refl _, fun m hm => hall m (by omega), h⟩
      · right
        intro m hm
        by_cases hm2 : m ≤ t
        · exact hall m hm2
        · have : m = t + 1 := by omega
          subst this
          simpa using h

/-- End-wait, for every sequence of answers of the cluster to its polls: it
succeeds at the first answer whose phase is Succeeded or Failed, fails with the
API error at the first answer that is an error, in both cases with no later
poll, and fails with `ErrWaitTimeout` after the last poll the bound allows when
no answer was decisive. One of the two always holds. -/
theorem waitPodEnd_first_decisive_observation (c : Cluster) (i : Nat) :
    (∀ k, k ≤ c.endTicks → (∀ m, m < k → isEndDecisive (c.Get (i + m)) = false) →
      (∀ p, c.Get (i + k) = Except.ok p →
        (p.Phase = PodPhase.PodSucceeded ∨ p.Phase = PodPhase.PodFailed) →
        waitPodEnd c i = (none, i + k + 1)) ∧
      (∀ err, c.Get (i + k) = Except.error err →
        waitPodEnd c i = (some err, i + k + 1))) ∧
    ((∀ m, m ≤ c.endTicks → isEndDecisive (c.Get (i + m)) = false) →
      waitPodEnd c i = (some GoError.ErrWaitTimeout, i + c.endTicks + 1)) ∧
    ((∃ k, k ≤ c.endTicks ∧ (∀ m, m < k → isEndDecisive (c.Get (i + m)) = false) ∧
        isEndDecisive (c.Get (i + k)) = true ∧ (waitPodEnd c i).2 = i + k + 1) ∨
      ((∀ m, m ≤ c.endTicks → isEndDecisive (c.Get (i + m)) = false) ∧
        waitPodEnd c i = (some GoError.ErrWaitTimeout, i + c.endTicks + 1))) := by
  have hdecisive : ∀ k, k ≤ c.endTicks →
      (∀ m, m < k → isEndDecisive (c.Get (i + m)) = false) →
      (∀ p, c.Get (i + k) = Except.ok p →
        (p.Phase = PodPhase.PodSucceeded ∨ p.Phase = PodPhase.PodFailed) →
        waitPodEnd c i = (none, i + k + 1)) ∧
      (∀ err, c.Get (i + k) = Except.error err →
        waitPodEnd c i = (some err, i + k + 1)) := by
    intro k hk hbefore
    have hskip := PollImmediate_skip (waitPodEndCondition c) k (c.endTicks - k) i
      (fun m hm => (waitPodEndCondition_pending c (i + m)).2 (hbefore m hm))
    rw [Nat.sub_add_cancel hk] at hskip
    unfold waitPodEnd
    rw [hskip]
    refine ⟨?_, ?_⟩
    · intro p hp hphase
      apply PollImmediate_done
      unfold waitPodEndCondition
      rcases hphase with h | h <;> simp [hp, h]
    · intro err herr
      apply PollImmediate_error _ _ _ false
      unfold waitPodEndCondition
      simp [herr]
  have htimeout : (∀ m, m ≤ c.endTicks → isEndDecisive (c.Get (i + m)) = false) →
      waitPodEnd c i = (some GoError.ErrWaitTimeout, i + c.endTicks + 1) := by
    intro hall
    unfold waitPodEnd
    exact PollImmediate_timeout _ _ _
      (fun m hm => (waitPodEndCondition_pending c (i + m)).2 (hall m hm))
  refine ⟨hdecisive, htimeout, ?_⟩
  rcases first_true_or_none (fun m => isEndDecisive (c.Get (i + m))) c.endTicks with
    ⟨k, hk, hbefore, hat⟩ | hall
  · left
    refine ⟨k, hk, hbefore, hat, ?_⟩
    obtain ⟨h1, h2⟩ := hdecisive k hk hbefore
    rcases hg : c.Get (i + k) with err | p
    · rw [h2 err hg]
    · rcases p with ⟨phase, statuses⟩
      cases phase
      · simp [isEndDecisive, hg] at hat
      · simp [isEndDecisive, hg] at hat
      · rw [h1 _ hg (Or.inl rfl)]
      · rw [h1 _ hg (Or.inr rfl)]
      · simp [isEndDecisive, hg] at hat
  · exact Or.inr ⟨hall, htimeout hall⟩

theorem podRunTask_end_wait_failures :
    waitPodEnd lostCluster 1 = (some (GoError.other 503), 2) ∧
      exitCodes (podRunTask lostCluster buildPod) = [] ∧
      waitPodEnd endlessCluster 1 = (some GoError.ErrWaitTimeout, 4) ∧
      exitCodes (podRunTask endlessCluster buildPod) = [] := by
  refine ⟨rfl, ?_, rfl, ?_⟩ <;> decide

end k8s

/-! ## podRun: a channel closed without a value -/

theorem podRun_closed {ops : DeployOperations} {p : spec.Pod}
    (h : ops.RunCommandBySpec p = RunResult.closed) :
    podRun ops p = ([Event.RunCommandBySpec p, Event.goCopy p], none) := by
  simp [podRun, h]

/-- C13, as the code behaves: `podRun` returns the run-failure error exactly
when it receives a non-nil value from the error channel of the run; the build
step then yields `ErrBuildFail` and the release step `ErrReleaseFail`. It
returns nil when it receives nil and also when the channel is closed without a
value: after such a build run the goroutine goes on to the creation of the
scheduled job or of the workload, and after such a release run it goes on to
`CreateOrUpdateDeploy`. -/
theorem podRun_fails_only_on_received_error (ops : DeployOperations) (p : spec.Pod)
    (tarBall : TarBall) (appName : String) (a : App) (confFiles : DeployConfigFiles)
    (description deployId : String) :
    ((podRun ops p).2 = some GoError.ErrPodRunFail ↔
      ∃ e, ops.RunCommandBySpec p = RunResult.value (some e)) ∧
    ((podRun ops p).2 = none ↔
      (ops.RunCommandBySpec p = RunResult.value none ∨
        ops.RunCommandBySpec p = RunResult.closed)) ∧
    (ops.UploadFile (tarBallLocation a deployId) tarBall = none →
      ((∃ e, ops.RunCommandBySpec (builderPod ops a deployId (buildDestOf appName deployId)) =
          RunResult.value (some e)) →
        (buildApp ops tarBall a deployId (buildDestOf appName deployId)).2 =
          some GoError.ErrBuildFail) ∧
      (ops.RunCommandBySpec (builderPod ops a deployId (buildDestOf appName deployId)) =
          RunResult.closed →
        deployTask ops appName tarBall a confFiles description deployId =
          [Event.Seek, Event.UploadFile (tarBallLocation a deployId),
            Event.RunCommandBySpec (builderPod ops a deployId (buildDestOf appName deployId)),
            Event.goCopy (builderPod ops a deployId (buildDestOf appName deployId))] ++
          (if a.ProcessType = app.ProcessTypeCron then
            createOrUpdateCronJob ops a confFiles (slugURLOf appName deployId) description
          else
            createOrUpdateDeploy ops a confFiles (slugURLOf appName deployId) description
              deployId) ++
          [Event.Close])) ∧
    ((∃ e, ops.RunCommandBySpec (releasePod ops a deployId (slugURLOf appName deployId)) =
        RunResult.value (some e)) →
      (runReleaseCmd ops a deployId (slugURLOf appName deployId)).2 =
        some GoError.ErrReleaseFail) ∧
    (declaresRelease confFiles →
      ops.RunCommandBySpec (releasePod ops a deployId (slugURLOf appName deployId)) =
        RunResult.closed →
      createOrUpdateDeploy ops a confFiles (slugURLOf appName deployId) description deployId =
        [Event.Fprintln "Running release command",
          Event.RunCommandBySpec (releasePod ops a deployId (slugURLOf appName deployId)),
          Event.goCopy (releasePod ops a deployId (slugURLOf appName deployId))] ++
        createOrUpdateDeployTail ops a confFiles (slugURLOf appName deployId) description) := by
  refine ⟨?_, ?_, ?_, ?_, ?_⟩
  · unfold podRun
    rcases ops.RunCommandBySpec p with (_ | e) | _ <;> simp
  · unfold podRun
    rcases ops.RunCommandBySpec p with (_ | e) | _ <;> simp
  · intro hup
    refine ⟨?_, ?_⟩
    · rintro ⟨e, hrun⟩
      rw [buildApp_run_fail hup hrun]
    · intro hclosed
      have hb : (buildApp ops tarBall a deployId (buildDestOf appName deployId)).2 = none := by
        simp [buildApp, hup, podRun_closed hclosed]
      by_cases hcron : a.ProcessType = app.ProcessTypeCron
      · rw [deployTask_cron hcron hb, buildApp_ok hb, if_pos hcron]
      · rw [deployTask_long_running hcron hb, buildApp_ok hb, if_neg hcron]
  · rintro ⟨e, hrun⟩
    rw [runReleaseCmd_fail hrun]
  · intro hd hclosed
    rw [createOrUpdateDeploy_release hd]
    simp [runReleaseCmd, podRun_closed hclosed]

/-- A build run that delivers an error makes `podRun` fail; a build run whose
channel is closed without a value makes it return nil. -/
theorem podRun_fails_only_on_received_error_witness :
    (podRun buildFailOps (builderPod buildFailOps sampleAppOfTeam "d1"
        (buildDestOf "sample" "d1"))).2 = some GoError.ErrPodRunFail ∧
      (podRun closedRunOps (builderPod closedRunOps sampleAppOfTeam "d1"
        (buildDestOf "sample" "d1"))).2 = none :=
  ⟨(podRun_fails_only_on_received_error buildFailOps
      (builderPod buildFailOps sampleAppOfTeam "d1" (buildDestOf "sample" "d1")) []
      "sample" sampleAppOfTeam sampleConf "first" "d1").1.2 ⟨GoError.other 1, rfl⟩,
    (podRun_fails_only_on_received_error closedRunOps
      (builderPod closedRunOps sampleAppOfTeam "d1" (buildDestOf "sample" "d1")) []
      "sample" sampleAppOfTeam sampleConf "first" "d1").2.1.2 (Or.inr rfl)⟩

/-- C13 as stated fails: when the error channel of the build pod run is closed
without a value, `podRun` and `buildApp` return nil, the error channel of
`Deploy` stays empty, `CreateOrUpdateDeploy` is called once and the success
line is written; when the channel of the release pod run is closed without a
value, `runReleaseCmd` returns nil and the pipeline goes on in the same way.
Neither `ErrBuildFail` nor `ErrReleaseFail` is ever sent. -/
theorem podRun_closed_channel_is_success :
    ((podRun closedRunOps (builderPod closedRunOps sampleAppOfTeam "d1"
          (buildDestOf "sample" "d1"))).2 = none ∧
      (buildApp closedRunOps [] sampleAppOfTeam "d1" (buildDestOf "sample" "d1")).2 = none ∧
      (Deploy closedRunOps developer "sample" [] "first").errChan = [] ∧
      ((Deploy closedRunOps developer "sample" [] "first").trace.filter
        Event.isCreateOrUpdateDeploy).length = 1 ∧
      writes (Deploy closedRunOps developer "sample" [] "first").trace =
        ["The app sample has been successfully deployed"]) ∧
    ((podRun closedReleaseOps (releasePod closedReleaseOps sampleAppOfTeam "d1"
          (slugURLOf "sample" "d1"))).2 = none ∧
      (runReleaseCmd closedReleaseOps sampleAppOfTeam "d1" (slugURLOf "sample" "d1")).2 = none ∧
      (Deploy closedReleaseOps developer "sample" [] "first").errChan = [] ∧
      ((Deploy closedReleaseOps developer "sample" [] "first").trace.filter
        Event.isCreateOrUpdateDeploy).length = 1 ∧
      writes (Deploy closedReleaseOps developer "sample" [] "first").trace =
        ["Running release command", "The app sample has been successfully deployed"]) := by
  refine ⟨⟨rfl, rfl, ?_, ?_, ?_⟩, ⟨rfl, rfl, ?_, ?_, ?_⟩⟩ <;> decide

end Teresa
